import Mathlib

/-!
Verification of the streaming tool-orchestration loop of the gemini-study web
backend (`SessionManager` in the server sources).  The TypeScript class is
shallowly embedded: its pure helpers become Lean functions, and the effectful
turn loop `sendMessage` becomes a deterministic function of an explicit
environment (`Env`) describing the behaviour of the external collaborators
(the model-session stream, the tool scheduler, and the abort signal).
All definitions follow the source file; observer events, the fallback chain,
the reconciliation of completed tool calls, the quota-error classifier and the
per-round loop are translated line by line.
-/

namespace GeminiStudy

/-- The model fallback chain, strongest first (source constant
`MODEL_FALLBACK_CHAIN`). -/
def MODEL_FALLBACK_CHAIN : List String :=
  ["gemini-2.5-pro", "gemini-2.5-flash", "gemini-2.0-flash", "gemini-1.5-flash"]

/-- `maxTurns` from `sendMessage`: the fixed round budget of one turn loop. -/
def maxTurns : Nat := 50

/-- Substring test on `List Char`: does the second list start with the first? -/
def charsStartWith : List Char → List Char → Bool
  | [], _ => true
  | _ :: _, [] => false
  | a :: as, b :: bs => a = b && charsStartWith as bs

/-- Occurrence of `pat` anywhere in the character list. -/
def charsContain (pat : List Char) : List Char → Bool
  | [] => charsStartWith pat []
  | c :: rest => charsStartWith pat (c :: rest) || charsContain pat rest

/-- `s.includes(pat)` of JavaScript strings, on the underlying characters. -/
def strContains (s pat : String) : Bool :=
  charsContain pat.data s.data

/-- `SessionManager.isQuotaError`: best-effort signature match against known
provider quota/rate-limit error strings. -/
def isQuotaError (error : String) : Bool :=
  strContains error "exhausted your capacity" ||
  strContains error "quota" ||
  strContains error "rate limit" ||
  strContains error "RESOURCE_EXHAUSTED"

/-- `getCurrentModel`: the chain entry at the session's current model index. -/
def getCurrentModel (idx : Nat) : String :=
  MODEL_FALLBACK_CHAIN.getD idx ""

/-- `switchToNextModel` on the session's model index: `(switched, newIndex)`.
The source also rebuilds the `Config` for the new model; that external object
is out of the embedding, only the index advance is modelled. -/
def switchToNextModel (idx : Nat) : Bool × Nat :=
  if idx + 1 ≥ MODEL_FALLBACK_CHAIN.length then (false, idx) else (true, idx + 1)

/-- `ToolCallRequestInfo`: one tool invocation requested by the model. -/
structure ToolCallRequestInfo where
  callId : String
  name : String
  args : List (String × String)
deriving DecidableEq, Repr

/-- A `Part` of the `@google/genai` message payload.  `functionResponse` is the
shape built by the fallback-response synthesis; all other part contents are
carried opaquely as `text`/`blob`. -/
inductive Part where
  | text (t : String)
  | functionResponse (name : String) (errorMessage : String)
  | blob (d : String)
deriving DecidableEq, Repr

/-- The per-call result record of the core tool scheduler
(`CompletedToolCall.response`); optional fields match the TS access paths
`resp?.resultDisplay ?? resp?.result ?? resp?.output ?? JSON.stringify(resp)`. -/
structure ToolCallResponseInfo where
  responseParts : Option (List Part)
  resultDisplay : Option String
  result : Option String
  output : Option String
  jsonString : String
deriving DecidableEq, Repr

/-- Terminal status of a completed tool call. -/
inductive ToolCallStatus where
  | success
  | error
  | cancelled
deriving DecidableEq, Repr

/-- `CompletedToolCall`: the scheduler's terminal outcome for one request. -/
structure CompletedToolCall where
  request : ToolCallRequestInfo
  status : ToolCallStatus
  response : Option ToolCallResponseInfo
deriving DecidableEq, Repr

/-- The `ServerGeminiStreamEvent` union as consumed by `SessionManager`:
`Content`, `Thought`, `ToolCallRequest`, `ToolCallResponse`,
`ToolCallConfirmation`, `Error`, `ChatCompressed`, and `unknown` standing for
every other `GeminiEventType` (those hit the `default:` arm of the transform).
The `error` constructor carries `event.value.error.message` and the string
rendering `String(event.value.error)` used by the `||` fallback. -/
inductive GeminiStreamEvent where
  | content (text : Option String)
  | thought (subject : String) (description : String)
  | toolCallRequest (value : ToolCallRequestInfo)
  | toolCallResponse (callId : String) (resultDisplay : String)
  | toolCallConfirmation (request : ToolCallRequestInfo) (detailsType : String)
  | error (message : String) (fullString : String)
  | chatCompressed
  | unknown (kind : String)
deriving DecidableEq, Repr

/-- The `WebStreamEvent` union sent to the observer (frontend). -/
inductive WebStreamEvent where
  | content (text : String)
  | thought (text : String)
  | tool_call (toolName : String) (args : List (String × String))
  | tool_result (toolName : String) (result : String)
  | tool_confirm_request (toolName : String) (args : List (String × String))
      (detailsType : String) (description : Option String)
  | tool_cancelled (toolName : String)
  | chat_compressed
  | error (message : String)
  | cancelled
  | finished
deriving DecidableEq, Repr

/-- `SessionManager.transformEvent`: the pure observer-facing transform.
Every listed internal event maps to exactly one observer event; the
`default:` arm returns `null` (here `none`).  For the confirmation event the
source forwards the raw details object; the embedding keeps its type tag and
no synthesized description. -/
def transformEvent : GeminiStreamEvent → Option WebStreamEvent
  | .content t => some (.content (t.getD ""))
  | .thought s d => some (.thought (s ++ ": " ++ d))
  | .toolCallRequest v => some (.tool_call v.name v.args)
  | .toolCallResponse callId rd => some (.tool_result callId rd)
  | .toolCallConfirmation req dt => some (.tool_confirm_request req.name req.args dt none)
  | .error m _ => some (.error m)
  | .chatCompressed => some .chat_compressed
  | .unknown _ => none

/-- The fallback response part synthesized in `sendMessage` for a completed
call with no usable response parts. -/
def fallbackResponse (c : CompletedToolCall) : Part :=
  .functionResponse c.request.name
    (if c.status = ToolCallStatus.cancelled then "Tool execution was cancelled"
     else "Tool execution failed or returned no response")

/-- The response-reconciliation loop of `sendMessage` (lines building
`toolResponseParts`): a call whose `response?.responseParts?.length` is truthy
contributes all of its response parts verbatim; every other call contributes
exactly one fallback part.  The source only logs a warning when the resulting
count differs from the request count. -/
def buildToolResponseParts : List CompletedToolCall → List Part
  | [] => []
  | c :: rest =>
    (match c.response with
     | some resp =>
       match resp.responseParts with
       | some parts => if parts.length ≠ 0 then parts else [fallbackResponse c]
       | none => [fallbackResponse c]
     | none => [fallbackResponse c]) ++ buildToolResponseParts rest

/-- `ToolCallConfirmationDetails` as used by the scheduler-update handler:
the discriminating `type` and the `fileName` shown for edit confirmations. -/
structure ConfirmationDetails where
  dtype : String
  fileName : Option String
deriving DecidableEq, Repr

/-- The `ToolConfirmation` record stored in `pendingToolConfirmation`
(the `onConfirm` callback itself is external; its invocation is modelled as
the returned outcome of `confirmTool`). -/
structure ToolConfirmation where
  toolName : String
  args : List (String × String)
  details : ConfirmationDetails
deriving DecidableEq, Repr

/-- `ToolConfirmationOutcome` of the core package. -/
inductive ToolConfirmationOutcome where
  | proceedOnce
  | proceedAlways
  | proceedAlwaysServer
  | proceedAlwaysTool
  | cancel
deriving DecidableEq, Repr

/-- One entry of an `onToolCallsUpdate` batch. -/
structure ToolCallUpdate where
  request : ToolCallRequestInfo
  status : String
  confirmationDetails : ConfirmationDetails
  response : Option ToolCallResponseInfo
deriving DecidableEq, Repr

/-- The mutable state threaded through `executeToolsWithScheduler`:
the session's pending-confirmation slot and the two local reported sets. -/
structure SchedulerState where
  pending : Option ToolConfirmation
  reportedSuccess : List String
  reportedCancelled : List String
deriving DecidableEq, Repr

/-- The human-readable description built for a confirmation request:
`Edit file: <fileName>` for edits (an absent `fileName` renders as the
JavaScript string `undefined`), `Execute: <tool>` otherwise. -/
def confirmDescription (d : ConfirmationDetails) (toolName : String) : String :=
  if d.dtype = "edit" then "Edit file: " ++ d.fileName.getD "undefined"
  else "Execute: " ++ toolName

/-- `resp?.resultDisplay ?? resp?.result ?? resp?.output ??
(resp ? JSON.stringify(resp) : 'Tool completed successfully')`. -/
def schedulerResult (resp : Option ToolCallResponseInfo) : String :=
  match resp with
  | none => "Tool completed successfully"
  | some r =>
    match r.resultDisplay with
    | some s => s
    | none =>
      match r.result with
      | some s => s
      | none =>
        match r.output with
        | some s => s
        | none => r.jsonString

/-- The body of the `onToolCallsUpdate` callback for a single tool call:
record a pending confirmation (only when the slot is empty) and emit
`tool_confirm_request`; emit `tool_result` for a first-reported success;
emit `tool_cancelled` for a first-reported cancellation. -/
def processToolUpdate (st : SchedulerState) (tc : ToolCallUpdate) :
    SchedulerState × List WebStreamEvent :=
  let step1 : SchedulerState × List WebStreamEvent :=
    if tc.status = "awaiting_approval" ∧ st.pending = none then
      ({ st with pending := some ⟨tc.request.name, tc.request.args, tc.confirmationDetails⟩ },
       [WebStreamEvent.tool_confirm_request tc.request.name tc.request.args
          tc.confirmationDetails.dtype
          (some (confirmDescription tc.confirmationDetails tc.request.name))])
    else (st, [])
  let step2 : SchedulerState × List WebStreamEvent :=
    if tc.status = "success" ∧ tc.request.callId ∉ step1.1.reportedSuccess then
      ({ step1.1 with reportedSuccess := step1.1.reportedSuccess ++ [tc.request.callId] },
       [WebStreamEvent.tool_result tc.request.name (schedulerResult tc.response)])
    else (step1.1, [])
  let step3 : SchedulerState × List WebStreamEvent :=
    if tc.status = "cancelled" ∧ tc.request.callId ∉ step2.1.reportedCancelled then
      ({ step2.1 with reportedCancelled := step2.1.reportedCancelled ++ [tc.request.callId] },
       [WebStreamEvent.tool_cancelled tc.request.name])
    else (step2.1, [])
  (step3.1, step1.2 ++ step2.2 ++ step3.2)

/-- One `onToolCallsUpdate` batch: the handler iterates over the calls. -/
def processToolUpdates (st : SchedulerState) :
    List ToolCallUpdate → SchedulerState × List WebStreamEvent
  | [] => (st, [])
  | tc :: rest =>
    let s1 := processToolUpdate st tc
    let s2 := processToolUpdates s1.1 rest
    (s2.1, s1.2 ++ s2.2)

/-- All update batches delivered while the scheduler runs. -/
def runSchedulerUpdates (st : SchedulerState) :
    List (List ToolCallUpdate) → SchedulerState × List WebStreamEvent
  | [] => (st, [])
  | batch :: rest =>
    let s1 := processToolUpdates st batch
    let s2 := runSchedulerUpdates s1.1 rest
    (s2.1, s1.2 ++ s2.2)

/-- The `onAllToolCallsComplete` callback: report `tool_result` for every
successful call not yet reported, then resolve with the completed calls. -/
def processAllToolCallsComplete (st : SchedulerState) :
    List CompletedToolCall → SchedulerState × List WebStreamEvent
  | [] => (st, [])
  | call :: rest =>
    let s1 : SchedulerState × List WebStreamEvent :=
      if call.status = ToolCallStatus.success ∧ call.request.callId ∉ st.reportedSuccess then
        ({ st with reportedSuccess := st.reportedSuccess ++ [call.request.callId] },
         [WebStreamEvent.tool_result call.request.name (schedulerResult call.response)])
      else (st, [])
    let s2 := processAllToolCallsComplete s1.1 rest
    (s2.1, s1.2 ++ s2.2)

/-- A thrown JavaScript error: its `.message` and its `String(error)`
rendering (`isQuotaError` stringifies, the observer event uses `.message`). -/
structure ThrownError where
  message : String
  str : String
deriving DecidableEq, Repr

/-- The externally observable behaviour of one scheduler batch: the update
batches it reports, the completed calls it resolves with, and an optional
rejection of `scheduler.schedule` (which rejects the whole promise). -/
structure SchedBehavior where
  updates : List (List ToolCallUpdate)
  completed : List CompletedToolCall
  scheduleError : Option ThrownError

/-- `executeToolsWithScheduler`, as a function of the scheduler's behaviour:
returns the final pending-confirmation slot, the observer events emitted by
the two callbacks, and either the completed calls or the rejection. -/
def executeToolsWithScheduler (pending : Option ToolConfirmation) (b : SchedBehavior) :
    Option ToolConfirmation × List WebStreamEvent × Except ThrownError (List CompletedToolCall) :=
  let st0 : SchedulerState := ⟨pending, [], []⟩
  let s1 := runSchedulerUpdates st0 b.updates
  match b.scheduleError with
  | some e => (s1.1.pending, s1.2, Except.error e)
  | none =>
    let s2 := processAllToolCallsComplete s1.1 b.completed
    (s2.1.pending, s1.2 ++ s2.2, Except.ok b.completed)

/-- `SessionManager.confirmTool` on the pending-confirmation slot: resolve
the stored confirmation with `ProceedOnce`/`Cancel` and clear the slot; with
no pending confirmation it only logs a warning. -/
def confirmTool (pending : Option ToolConfirmation) (confirmed : Bool) :
    Option ToolConfirmation × Option ToolConfirmationOutcome :=
  match pending with
  | some _ =>
    (none, some (if confirmed then ToolConfirmationOutcome.proceedOnce
                 else ToolConfirmationOutcome.cancel))
  | none => (none, none)

/-- An `AbortController`: only its fired/not-fired flag is observable. -/
structure AbortControllerState where
  aborted : Bool
deriving DecidableEq, Repr

/-- The `WebSession` record (the external `Config` object is omitted). -/
structure WebSession where
  id : String
  projectPath : String
  currentModelIndex : Nat
  abortController : Option AbortControllerState
deriving DecidableEq, Repr

/-- The two mutable fields of `SessionManager`. -/
structure SessionManagerState where
  session : Option WebSession
  pendingToolConfirmation : Option ToolConfirmation
deriving DecidableEq, Repr

/-- `SessionManager.cancelCurrentRequest`: fire the abort signal of the
current controller if one exists, otherwise do nothing. -/
def cancelCurrentRequest (st : SessionManagerState) : SessionManagerState :=
  match st.session with
  | some s =>
    match s.abortController with
    | some ac =>
      { st with session := some { s with abortController := some { ac with aborted := true } } }
    | none => st
  | none => st

/-- One round's model-session stream: the events yielded before the stream
either exhausts naturally (`thrown = none`) or raises (`thrown = some e`,
swallowing any remaining events, as iteration stops at the throw). -/
structure RoundStream where
  events : List GeminiStreamEvent
  thrown : Option ThrownError

/-- The environment of one `sendMessage` call: the behaviour of the external
collaborators.  `stream i t` is the round-`t` stream while the session is on
model index `i` (a quota restart begins again at `t = 1` on the next index);
`sched i t` is the scheduler behaviour for the tools of that round;
`abortFires i` gives, per controller (one fresh controller per model index,
since the quota restart clears and reallocates it), the number of stream
events after which the out-of-band `cancelCurrentRequest` lands: every later
`signal.aborted` check reads true. -/
structure Env where
  stream : Nat → Nat → RoundStream
  sched : Nat → Nat → SchedBehavior
  abortFires : Nat → Option Nat

/-- Is the abort signal of the attempt on model index `idx` fired at check
counter `t` (`t` = number of stream events observed so far in the attempt)? -/
def abortedAt (env : Env) (idx : Nat) (t : Nat) : Bool :=
  match env.abortFires idx with
  | some t0 => t0 ≤ t
  | none => false

/-- The running state of one `sendMessage` activation.  `time` counts the
`signal.aborted` checks of the current attempt, `events` the observer events
emitted so far, `pending` mirrors `pendingToolConfirmation`, `sent` records
every model-session invocation as `(modelIndex, turnCount, message)`,
`rounds` is the current attempt's `turnCount`.  The remaining fields are
ghost markers of the code path taken: the number of `Error` stream events
observed, whether the round budget ran out, and whether a quota error with an
exhausted chain was handled in the catch block or on the stream path. -/
structure LoopState where
  time : Nat
  events : List WebStreamEvent
  pending : Option ToolConfirmation
  sent : List (Nat × Nat × List Part)
  rounds : Nat
  streamErrors : Nat
  maxTurnsHit : Bool
  exhaustedViaCatch : Bool
  exhaustedViaStream : Bool
deriving DecidableEq, Repr

/-- Control flow after handling one stream event. -/
inductive EventStep where
  | go (ls : LoopState) (reqs : List ToolCallRequestInfo)
  | halt (ls : LoopState)
  | switchModel (ls : LoopState) (newIdx : Nat)
deriving DecidableEq, Repr

/-- Control flow after consuming one round's stream. -/
inductive StreamOutcome where
  | done (ls : LoopState) (reqs : List ToolCallRequestInfo)
  | halt (ls : LoopState)
  | switch (ls : LoopState) (newIdx : Nat)
deriving DecidableEq, Repr

/-- Control flow of the whole round loop of one attempt. -/
inductive RoundsOutcome where
  | halt (ls : LoopState)
  | switch (ls : LoopState) (newIdx : Nat)
deriving DecidableEq, Repr

/-- `error.message || String(error)` for a stream `Error` event value. -/
def errorMessageOf (msg fullString : String) : String :=
  if msg = "" then fullString else msg

/-- The synthetic informational content published when the loop falls back to
the next model. -/
def switchNotice (currentModel newModel : String) : String :=
  "\n\n⚠️ **" ++ currentModel ++ " 配额已用尽，已自动切换到 " ++ newModel ++ "**\n\n"

/-- The final error surfaced when every model in the chain is exhausted
(from the catch block of `sendMessage`). -/
def exhaustedMessage : String :=
  "所有模型配额已用尽，请稍后再试。(" ++
    String.intercalate " → " MODEL_FALLBACK_CHAIN ++ " 均不可用)"

/-- The in-stream `Error` handling of `sendMessage`: the transform already
emitted the `error` observer event; on a quota signature try the fallback
switch and either publish the switch notice and restart, or fall through to
the plain `error` emission. -/
def handleErrorEvent (idx : Nat) (ls : LoopState) (errorMsg : String) : EventStep :=
  if isQuotaError errorMsg then
    match switchToNextModel idx with
    | (true, j) =>
      .switchModel
        { ls with events := ls.events ++
            [WebStreamEvent.content (switchNotice (getCurrentModel idx) (getCurrentModel j))] } j
    | (false, _) =>
      .halt { ls with events := ls.events ++ [WebStreamEvent.error errorMsg],
                      exhaustedViaStream := true }
  else
    .halt { ls with events := ls.events ++ [WebStreamEvent.error errorMsg] }

/-- The body of the `for await (const event of stream)` loop for one event:
first the `signal.aborted` check (emit `cancelled` and return), then request
collection, then the transform emission, then the `Error` handling. -/
def handleStreamEvent (env : Env) (idx : Nat) (ls : LoopState)
    (reqs : List ToolCallRequestInfo) (e : GeminiStreamEvent) : EventStep :=
  if abortedAt env idx ls.time then
    .halt { ls with events := ls.events ++ [WebStreamEvent.cancelled] }
  else
    let ls1 := { ls with time := ls.time + 1 }
    match e with
    | .error msg full =>
      handleErrorEvent idx
        { ls1 with
            events := ls1.events ++ (transformEvent (GeminiStreamEvent.error msg full)).toList,
            streamErrors := ls1.streamErrors + 1 }
        (errorMessageOf msg full)
    | .toolCallRequest v =>
      .go { ls1 with
              events := ls1.events ++ (transformEvent (GeminiStreamEvent.toolCallRequest v)).toList }
        (reqs ++ [v])
    | other =>
      .go { ls1 with events := ls1.events ++ (transformEvent other).toList } reqs

/-- Consume one round's stream events in order. -/
def processStreamEvents (env : Env) (idx : Nat) (ls : LoopState)
    (reqs : List ToolCallRequestInfo) : List GeminiStreamEvent → StreamOutcome
  | [] => .done ls reqs
  | e :: rest =>
    match handleStreamEvent env idx ls reqs e with
    | .go ls2 reqs2 => processStreamEvents env idx ls2 reqs2 rest
    | .halt ls2 => .halt ls2
    | .switchModel ls2 j => .switch ls2 j

/-- The `catch` block of `sendMessage` for a thrown error: quota errors try
the fallback (switch notice and restart, or the exhaustion error naming the
whole chain); otherwise `cancelled` if the signal aborted, else the plain
error message. -/
def catchHandler (env : Env) (idx : Nat) (ls : LoopState) (e : ThrownError) : RoundsOutcome :=
  if isQuotaError e.str then
    match switchToNextModel idx with
    | (true, j) =>
      .switch
        { ls with events := ls.events ++
            [WebStreamEvent.content (switchNotice (getCurrentModel idx) (getCurrentModel j))] } j
    | (false, _) =>
      .halt { ls with events := ls.events ++ [WebStreamEvent.error exhaustedMessage],
                      exhaustedViaCatch := true }
  else if abortedAt env idx ls.time then
    .halt { ls with events := ls.events ++ [WebStreamEvent.cancelled] }
  else
    .halt { ls with events := ls.events ++ [WebStreamEvent.error e.message] }

/-- State at round entry: `turnCount++` and the record of the model-session
invocation `(modelIndex, turnCount, message)`. -/
def roundEntryState (idx : Nat) (ls : LoopState) (cm : List Part) : LoopState :=
  { ls with rounds := ls.rounds + 1, sent := ls.sent ++ [(idx, ls.rounds + 1, cm)] }

/-- State after the scheduler ran: its emitted observer events and the new
pending-confirmation slot. -/
def toolEventsState (ls : LoopState) (pending2 : Option ToolConfirmation)
    (evs : List WebStreamEvent) : LoopState :=
  { ls with pending := pending2, events := ls.events ++ evs }

/-- The `while (turnCount < maxTurns)` loop of `sendMessage`, with the
remaining budget as fuel.  Each iteration opens the round's stream, collects
tool requests, executes them through the scheduler and reconciles the
completed calls into the next message; a round with no tool requests emits
`finished`; an empty budget emits the max-turns error. -/
def runRounds (env : Env) (idx : Nat) : Nat → LoopState → List Part → RoundsOutcome
  | 0, ls, _ =>
    .halt { ls with events := ls.events ++ [WebStreamEvent.error "Maximum conversation turns exceeded"],
                    maxTurnsHit := true }
  | fuel + 1, ls, currentMessage =>
    let rs := env.stream idx (ls.rounds + 1)
    match processStreamEvents env idx (roundEntryState idx ls currentMessage) [] rs.events with
    | .halt ls2 => .halt ls2
    | .switch ls2 j => .switch ls2 j
    | .done ls2 reqs =>
      match rs.thrown with
      | some e => catchHandler env idx ls2 e
      | none =>
        if reqs.length > 0 then
          match executeToolsWithScheduler ls2.pending (env.sched idx (ls.rounds + 1)) with
          | (pending2, evs, Except.error e) =>
            catchHandler env idx (toolEventsState ls2 pending2 evs) e
          | (pending2, evs, Except.ok completed) =>
            runRounds env idx fuel (toolEventsState ls2 pending2 evs)
              (buildToolResponseParts completed)
        else
          .halt { ls2 with events := ls2.events ++ [WebStreamEvent.finished] }

/-- The aggregate outcome of a `sendMessage` call: the final loop state, the
per-attempt round counts, the session's final model index, and whether the
recursion fuel (the fallback-chain length bound) ran out. -/
structure RunResult where
  finalLs : LoopState
  roundsPerAttempt : List Nat
  finalModelIndex : Nat
  fuelExhausted : Bool
deriving DecidableEq, Repr

/-- The quota-fallback restart recursion of `sendMessage`
(`return this.sendMessage(message, onEvent)` after a successful switch):
every attempt restarts round counting and the abort-check clock, and is
re-invoked with the original user message. -/
def runAttempts (env : Env) (message : String) : Nat → Nat → LoopState → RunResult
  | 0, idx, ls => ⟨ls, [], idx, true⟩
  | fuel + 1, idx, ls =>
    let ls0 := { ls with time := 0, rounds := 0 }
    match runRounds env idx maxTurns ls0 [Part.text message] with
    | .halt ls1 => ⟨ls1, [ls1.rounds], idx, false⟩
    | .switch ls1 j =>
      let r := runAttempts env message fuel j ls1
      { r with roundsPerAttempt := ls1.rounds :: r.roundsPerAttempt }

/-- The fresh state at the start of a `sendMessage` call. -/
def initialLoopState (pending : Option ToolConfirmation) : LoopState :=
  ⟨0, [], pending, [], 0, 0, false, false, false⟩

/-- The whole turn of `sendMessage` on an active session at model index
`idx`: the restart recursion is given exactly the fallback-chain slack as
fuel (and is proved never to run out of it). -/
def sendMessageRun (env : Env) (message : String) (idx : Nat)
    (pending : Option ToolConfirmation) : RunResult :=
  runAttempts env message (MODEL_FALLBACK_CHAIN.length - idx) idx (initialLoopState pending)

/-- `sendMessage` at the manager level: with no active session it throws
`'No active session'` before any other effect; otherwise it runs the turn and
(in the `finally` path) clears the abort controller.  The result carries the
outcome, the post state, and the observer events emitted. -/
inductive SendOutcome where
  | completed (r : RunResult)
  | threw (msg : String)

def sendMessage (st : SessionManagerState) (env : Env) (message : String) :
    SendOutcome × SessionManagerState × List WebStreamEvent :=
  match st.session with
  | none => (.threw "No active session", st, [])
  | some s =>
    let r := sendMessageRun env message s.currentModelIndex st.pendingToolConfirmation
    (.completed r,
     { session := some { s with currentModelIndex := r.finalModelIndex, abortController := none },
       pendingToolConfirmation := r.finalLs.pending },
     r.finalLs.events)

/-- Observer events that end a turn for the frontend. -/
def isTerminalEvent : WebStreamEvent → Bool
  | .error _ => true
  | .cancelled => true
  | .finished => true
  | _ => false

def isCancelledEvent : WebStreamEvent → Bool
  | .cancelled => true
  | _ => false

def isConfirmRequestEvent : WebStreamEvent → Bool
  | .tool_confirm_request _ _ _ _ => true
  | _ => false

def countTerminal (l : List WebStreamEvent) : Nat := l.countP isTerminalEvent

def countCancelled (l : List WebStreamEvent) : Nat := l.countP isCancelledEvent

def countConfirmRequests (l : List WebStreamEvent) : Nat := l.countP isConfirmRequestEvent

lemma countTerminal_append (a b : List WebStreamEvent) :
    countTerminal (a ++ b) = countTerminal a + countTerminal b := by
  simp [countTerminal, List.countP_append]

lemma countCancelled_append (a b : List WebStreamEvent) :
    countCancelled (a ++ b) = countCancelled a + countCancelled b := by
  simp [countCancelled, List.countP_append]

lemma countConfirmRequests_append (a b : List WebStreamEvent) :
    countConfirmRequests (a ++ b) = countConfirmRequests a + countConfirmRequests b := by
  simp [countConfirmRequests, List.countP_append]

lemma getLast?_append_single {α : Type} (l : List α) (a : α) :
    (l ++ [a]).getLast? = some a := by
  induction l with
  | nil => rfl
  | cons x xs ih => simp [List.cons_append, List.getLast?_cons, ih]

/-- The transform emits a terminal observer event exactly for `Error` stream
events (the `error{message}` row of the table). -/
lemma countTerminal_transform (e : GeminiStreamEvent) :
    countTerminal (transformEvent e).toList =
      (match e with | .error _ _ => 1 | _ => 0) := by
  cases e <;>
    simp [transformEvent, countTerminal, List.countP_cons, List.countP_nil, isTerminalEvent]

lemma countCancelled_transform (e : GeminiStreamEvent) :
    countCancelled (transformEvent e).toList = 0 := by
  cases e <;>
    simp [transformEvent, countCancelled, List.countP_cons, List.countP_nil, isCancelledEvent]

/-- State relation: observer-event counts and all ghost markers agree
(the events list itself may have grown by non-terminal emissions). -/
def EventsGhostsEq (ls ls2 : LoopState) : Prop :=
  countTerminal ls2.events = countTerminal ls.events ∧
  countCancelled ls2.events = countCancelled ls.events ∧
  ls2.streamErrors = ls.streamErrors ∧
  ls2.maxTurnsHit = ls.maxTurnsHit ∧
  ls2.exhaustedViaCatch = ls.exhaustedViaCatch ∧
  ls2.exhaustedViaStream = ls.exhaustedViaStream

/-- The loop-owned bookkeeping untouched by stream-event handling. -/
def coreGhosts (ls ls2 : LoopState) : Prop :=
  ls2.pending = ls.pending ∧ ls2.sent = ls.sent ∧ ls2.rounds = ls.rounds ∧
  ls2.maxTurnsHit = ls.maxTurnsHit

/-- Postcondition of a stream step that continues the round. -/
def DeltaNone (ls ls2 : LoopState) : Prop :=
  countTerminal ls2.events = countTerminal ls.events ∧
  countCancelled ls2.events = countCancelled ls.events ∧
  ls2.streamErrors = ls.streamErrors ∧
  ls2.exhaustedViaStream = ls.exhaustedViaStream ∧
  ls2.exhaustedViaCatch = ls.exhaustedViaCatch ∧
  coreGhosts ls ls2

/-- Postcondition of a stream step that returns from `sendMessage`:
one terminal event beyond the transform's own `error` emission. -/
def HaltDelta (ls ls2 : LoopState) : Prop :=
  countTerminal ls2.events + ls.streamErrors
      = countTerminal ls.events + ls2.streamErrors + 1 ∧
  countCancelled ls2.events ≤ countCancelled ls.events + 1 ∧
  (ls2.streamErrors = ls.streamErrors ∨ ls2.streamErrors = ls.streamErrors + 1) ∧
  coreGhosts ls ls2 ∧
  ls2.exhaustedViaCatch = ls.exhaustedViaCatch ∧
  (ls2.exhaustedViaStream = ls.exhaustedViaStream ∨
    (ls2.exhaustedViaStream = true ∧
     ∃ m, ls2.events.getLast? = some (WebStreamEvent.error m) ∧ isQuotaError m = true))

/-- Postcondition of a stream step that switches the model: the observed
quota `Error` event went through the transform (one terminal `error`), the
switch notice is the last emission, and the new index is the next chain
entry. -/
def SwitchDelta (idx : Nat) (ls ls2 : LoopState) (j : Nat) : Prop :=
  j = idx + 1 ∧ j < MODEL_FALLBACK_CHAIN.length ∧
  countTerminal ls2.events = countTerminal ls.events + 1 ∧
  countCancelled ls2.events = countCancelled ls.events ∧
  ls2.streamErrors = ls.streamErrors + 1 ∧
  ls2.exhaustedViaStream = ls.exhaustedViaStream ∧
  ls2.exhaustedViaCatch = ls.exhaustedViaCatch ∧
  coreGhosts ls ls2 ∧
  ls2.events.getLast? =
    some (WebStreamEvent.content (switchNotice (getCurrentModel idx) (getCurrentModel j)))

/-- Postcondition of the catch block when it returns from `sendMessage`. -/
def CatchHaltDelta (ls ls2 : LoopState) : Prop :=
  countTerminal ls2.events = countTerminal ls.events + 1 ∧
  countCancelled ls2.events ≤ countCancelled ls.events + 1 ∧
  ls2.streamErrors = ls.streamErrors ∧
  coreGhosts ls ls2 ∧
  ls2.exhaustedViaStream = ls.exhaustedViaStream ∧
  (ls2.exhaustedViaCatch = ls.exhaustedViaCatch ∨
    (ls2.exhaustedViaCatch = true ∧
     ls2.events.getLast? = some (WebStreamEvent.error exhaustedMessage)))

/-- Postcondition of the catch block when it switches the model: only the
informational switch notice is emitted, no terminal event. -/
def CatchSwitchDelta (idx : Nat) (ls ls2 : LoopState) (j : Nat) : Prop :=
  j = idx + 1 ∧ j < MODEL_FALLBACK_CHAIN.length ∧
  countTerminal ls2.events = countTerminal ls.events ∧
  countCancelled ls2.events = countCancelled ls.events ∧
  ls2.streamErrors = ls.streamErrors ∧
  ls2.exhaustedViaStream = ls.exhaustedViaStream ∧
  ls2.exhaustedViaCatch = ls.exhaustedViaCatch ∧
  coreGhosts ls ls2 ∧
  ls2.events.getLast? =
    some (WebStreamEvent.content (switchNotice (getCurrentModel idx) (getCurrentModel j)))

/-- Case analysis of one stream-event step of the turn loop. -/
lemma handleStreamEvent_spec (env : Env) (idx : Nat) (ls : LoopState)
    (reqs : List ToolCallRequestInfo) (e : GeminiStreamEvent) :
    match handleStreamEvent env idx ls reqs e with
    | .go ls2 _ => DeltaNone ls ls2
    | .halt ls2 => HaltDelta ls ls2
    | .switchModel ls2 j => SwitchDelta idx ls ls2 j := by
  unfold handleStreamEvent
  by_cases hab : abortedAt env idx ls.time = true
  · simp only [hab, if_true]
    refine ⟨?_, ?_, Or.inl rfl, ⟨rfl, rfl, rfl, rfl⟩, rfl, Or.inl rfl⟩ <;>
      simp [countTerminal_append, countCancelled_append, countTerminal, countCancelled,
            List.countP_cons, List.countP_nil, isTerminalEvent, isCancelledEvent] <;> omega
  · simp only [hab, if_false]
    cases e with
    | error msg full =>
      unfold handleErrorEvent switchToNextModel
      by_cases hq : isQuotaError (errorMessageOf msg full) = true
      · simp only [hq, if_true]
        by_cases hlen : idx + 1 ≥ MODEL_FALLBACK_CHAIN.length
        · simp only [if_pos hlen]
          refine ⟨?_, ?_, Or.inr rfl, ⟨rfl, rfl, rfl, rfl⟩, rfl,
                  Or.inr ⟨rfl, errorMessageOf msg full, getLast?_append_single _ _, hq⟩⟩
          · simp [countTerminal_append, countTerminal, List.countP_cons, List.countP_nil,
                  isTerminalEvent, transformEvent] <;> omega
          · simp [countCancelled_append, countCancelled, List.countP_cons, List.countP_nil,
                  isCancelledEvent, transformEvent] <;> omega
        · simp only [if_neg hlen]
          refine ⟨rfl, by omega, ?_, ?_, rfl, rfl, rfl, ⟨rfl, rfl, rfl, rfl⟩,
                  getLast?_append_single _ _⟩
          · simp [countTerminal_append, countTerminal, List.countP_cons, List.countP_nil,
                  isTerminalEvent, transformEvent] <;> omega
          · simp [countCancelled_append, countCancelled, List.countP_cons, List.countP_nil,
                  isCancelledEvent, transformEvent] <;> omega
      · simp only [hq, if_false]
        refine ⟨?_, ?_, Or.inr rfl, ⟨rfl, rfl, rfl, rfl⟩, rfl, Or.inl rfl⟩
        · simp [countTerminal_append, countTerminal, List.countP_cons, List.countP_nil,
                isTerminalEvent, transformEvent] <;> omega
        · simp [countCancelled_append, countCancelled, List.countP_cons, List.countP_nil,
                isCancelledEvent, transformEvent] <;> omega
    | toolCallRequest v =>
      refine ⟨?_, ?_, rfl, rfl, rfl, rfl, rfl, rfl, rfl⟩ <;>
        simp [countTerminal_append, countCancelled_append, countTerminal_transform,
              countCancelled_transform]
    | content t =>
      refine ⟨?_, ?_, rfl, rfl, rfl, rfl, rfl, rfl, rfl⟩ <;>
        simp [countTerminal_append, countCancelled_append, countTerminal_transform,
              countCancelled_transform]
    | thought s d =>
      refine ⟨?_, ?_, rfl, rfl, rfl, rfl, rfl, rfl, rfl⟩ <;>
        simp [countTerminal_append, countCancelled_append, countTerminal_transform,
              countCancelled_transform]
    | toolCallResponse c rd =>
      refine ⟨?_, ?_, rfl, rfl, rfl, rfl, rfl, rfl, rfl⟩ <;>
        simp [countTerminal_append, countCancelled_append, countTerminal_transform,
              countCancelled_transform]
    | toolCallConfirmation rq dt =>
      refine ⟨?_, ?_, rfl, rfl, rfl, rfl, rfl, rfl, rfl⟩ <;>
        simp [countTerminal_append, countCancelled_append, countTerminal_transform,
              countCancelled_transform]
    | chatCompressed =>
      refine ⟨?_, ?_, rfl, rfl, rfl, rfl, rfl, rfl, rfl⟩ <;>
        simp [countTerminal_append, countCancelled_append, countTerminal_transform,
              countCancelled_transform]
    | unknown k =>
      refine ⟨?_, ?_, rfl, rfl, rfl, rfl, rfl, rfl, rfl⟩ <;>
        simp [countTerminal_append, countCancelled_append, countTerminal_transform,
              countCancelled_transform]

lemma deltaNone_trans {ls ls2 ls3 : LoopState}
    (h1 : DeltaNone ls ls2) (h2 : DeltaNone ls2 ls3) : DeltaNone ls ls3 := by
  obtain ⟨a1, b1, c1, d1, e1, p1, s1, r1, m1⟩ := h1
  obtain ⟨a2, b2, c2, d2, e2, p2, s2, r2, m2⟩ := h2
  exact ⟨a2.trans a1, b2.trans b1, c2.trans c1, d2.trans d1, e2.trans e1,
         p2.trans p1, s2.trans s1, r2.trans r1, m2.trans m1⟩

lemma deltaNone_haltDelta {ls ls2 ls3 : LoopState}
    (h1 : DeltaNone ls ls2) (h2 : HaltDelta ls2 ls3) : HaltDelta ls ls3 := by
  obtain ⟨a1, b1, c1, d1, e1, p1, s1, r1, m1⟩ := h1
  obtain ⟨a2, b2, c2, ⟨p2, s2, r2, m2⟩, e2, d2⟩ := h2
  refine ⟨by omega, by omega, by omega, ⟨p2.trans p1, s2.trans s1, r2.trans r1, m2.trans m1⟩,
          e2.trans e1, ?_⟩
  rcases d2 with d2 | d2
  · exact Or.inl (d2.trans d1)
  · exact Or.inr d2

lemma deltaNone_switchDelta {idx : Nat} {ls ls2 ls3 : LoopState} {j : Nat}
    (h1 : DeltaNone ls ls2) (h2 : SwitchDelta idx ls2 ls3 j) : SwitchDelta idx ls ls3 j := by
  obtain ⟨a1, b1, c1, d1, e1, p1, s1, r1, m1⟩ := h1
  obtain ⟨hj, hlt, a2, b2, c2, d2, e2, ⟨p2, s2, r2, m2⟩, hlast⟩ := h2
  exact ⟨hj, hlt, by omega, by omega, by omega, d2.trans d1, e2.trans e1,
         ⟨p2.trans p1, s2.trans s1, r2.trans r1, m2.trans m1⟩, hlast⟩

/-- Consuming one round's stream: the outcome satisfies the per-kind delta. -/
lemma processStreamEvents_spec (env : Env) (idx : Nat) :
    ∀ (evs : List GeminiStreamEvent) (ls : LoopState) (reqs : List ToolCallRequestInfo),
    match processStreamEvents env idx ls reqs evs with
    | .done ls2 _ => DeltaNone ls ls2
    | .halt ls2 => HaltDelta ls ls2
    | .switch ls2 j => SwitchDelta idx ls ls2 j := by
  intro evs
  induction evs with
  | nil =>
    intro ls reqs
    exact ⟨rfl, rfl, rfl, rfl, rfl, rfl, rfl, rfl, rfl⟩
  | cons e rest ih =>
    intro ls reqs
    have h := handleStreamEvent_spec env idx ls reqs e
    simp only [processStreamEvents]
    rcases hh : handleStreamEvent env idx ls reqs e with ⟨ls2, reqs2⟩ | ls2 | ⟨ls2, j⟩ <;>
      rw [hh] at h
    · have h2 := ih ls2 reqs2
      rcases hp : processStreamEvents env idx ls2 reqs2 rest with ⟨ls3, reqs3⟩ | ls3 | ⟨ls3, j3⟩ <;>
        rw [hp] at h2 <;> simp only [hp]
      · exact deltaNone_trans h h2
      · exact deltaNone_haltDelta h h2
      · exact deltaNone_switchDelta h h2
    · exact h
    · exact h

/-- Case analysis of the catch block. -/
lemma catchHandler_spec (env : Env) (idx : Nat) (ls : LoopState) (e : ThrownError) :
    match catchHandler env idx ls e with
    | .halt ls2 => CatchHaltDelta ls ls2
    | .switch ls2 j => CatchSwitchDelta idx ls ls2 j := by
  unfold catchHandler switchToNextModel
  by_cases hq : isQuotaError e.str = true
  · simp only [hq, if_true]
    by_cases hlen : idx + 1 ≥ MODEL_FALLBACK_CHAIN.length
    · simp only [if_pos hlen]
      refine ⟨?_, ?_, rfl, ⟨rfl, rfl, rfl, rfl⟩, rfl,
              Or.inr ⟨rfl, getLast?_append_single _ _⟩⟩
      · simp [countTerminal_append, countTerminal, List.countP_cons, List.countP_nil,
              isTerminalEvent] <;> omega
      · simp [countCancelled_append, countCancelled, List.countP_cons, List.countP_nil,
              isCancelledEvent] <;> omega
    · simp only [if_neg hlen]
      refine ⟨rfl, by omega, ?_, ?_, rfl, rfl, rfl, ⟨rfl, rfl, rfl, rfl⟩,
              getLast?_append_single _ _⟩
      · simp [countTerminal_append, countTerminal, List.countP_cons, List.countP_nil,
              isTerminalEvent] <;> omega
      · simp [countCancelled_append, countCancelled, List.countP_cons, List.countP_nil,
              isCancelledEvent] <;> omega
  · simp only [hq, if_false]
    by_cases hab : abortedAt env idx ls.time = true
    · simp only [hab, if_true]
      refine ⟨?_, ?_, rfl, ⟨rfl, rfl, rfl, rfl⟩, rfl, Or.inl rfl⟩
      · simp [countTerminal_append, countTerminal, List.countP_cons, List.countP_nil,
              isTerminalEvent] <;> omega
      · simp [countCancelled_append, countCancelled, List.countP_cons, List.countP_nil,
              isCancelledEvent] <;> omega
    · simp only [hab, if_false]
      refine ⟨?_, ?_, rfl, ⟨rfl, rfl, rfl, rfl⟩, rfl, Or.inl rfl⟩
      · simp [countTerminal_append, countTerminal, List.countP_cons, List.countP_nil,
              isTerminalEvent] <;> omega
      · simp [countCancelled_append, countCancelled, List.countP_cons, List.countP_nil,
              isCancelledEvent] <;> omega

lemma processToolUpdate_counts (st : SchedulerState) (tc : ToolCallUpdate) :
    countTerminal (processToolUpdate st tc).2 = 0 ∧
    countCancelled (processToolUpdate st tc).2 = 0 := by
  simp only [processToolUpdate]
  split_ifs <;>
    simp [countTerminal_append, countCancelled_append, countTerminal, countCancelled,
          List.countP_cons, List.countP_nil, isTerminalEvent, isCancelledEvent]

lemma processToolUpdates_counts :
    ∀ (l : List ToolCallUpdate) (st : SchedulerState),
    countTerminal (processToolUpdates st l).2 = 0 ∧
    countCancelled (processToolUpdates st l).2 = 0 := by
  intro l
  induction l with
  | nil => intro st; simp [processToolUpdates, countTerminal, countCancelled]
  | cons tc rest ih =>
    intro st
    have h1 := processToolUpdate_counts st tc
    have h2 := ih (processToolUpdate st tc).1
    simp only [processToolUpdates, countTerminal_append, countCancelled_append]
    omega

lemma runSchedulerUpdates_counts :
    ∀ (l : List (List ToolCallUpdate)) (st : SchedulerState),
    countTerminal (runSchedulerUpdates st l).2 = 0 ∧
    countCancelled (runSchedulerUpdates st l).2 = 0 := by
  intro l
  induction l with
  | nil => intro st; simp [runSchedulerUpdates, countTerminal, countCancelled]
  | cons batch rest ih =>
    intro st
    have h1 := processToolUpdates_counts batch st
    have h2 := ih (processToolUpdates st batch).1
    simp only [runSchedulerUpdates, countTerminal_append, countCancelled_append]
    omega

lemma processAllToolCallsComplete_counts :
    ∀ (l : List CompletedToolCall) (st : SchedulerState),
    countTerminal (processAllToolCallsComplete st l).2 = 0 ∧
    countCancelled (processAllToolCallsComplete st l).2 = 0 := by
  intro l
  induction l with
  | nil => intro st; simp [processAllToolCallsComplete, countTerminal, countCancelled]
  | cons call rest ih =>
    intro st
    simp only [processAllToolCallsComplete]
    split_ifs with h
    · obtain ⟨h21, h22⟩ := ih { st with reportedSuccess := st.reportedSuccess ++ [call.request.callId] }
      have hx : countTerminal
          [WebStreamEvent.tool_result call.request.name (schedulerResult call.response)] = 0 := by
        simp [countTerminal, List.countP_cons, List.countP_nil, isTerminalEvent]
      have hy : countCancelled
          [WebStreamEvent.tool_result call.request.name (schedulerResult call.response)] = 0 := by
        simp [countCancelled, List.countP_cons, List.countP_nil, isCancelledEvent]
      simp only [countTerminal_append, countCancelled_append]
      omega
    · obtain ⟨h21, h22⟩ := ih st
      simp only [countTerminal_append, countCancelled_append]
      have hx : countTerminal ([] : List WebStreamEvent) = 0 := rfl
      have hy : countCancelled ([] : List WebStreamEvent) = 0 := rfl
      omega

/-- The scheduler callbacks never emit a terminal observer event. -/
lemma executeToolsWithScheduler_counts (pending : Option ToolConfirmation) (b : SchedBehavior) :
    countTerminal (executeToolsWithScheduler pending b).2.1 = 0 ∧
    countCancelled (executeToolsWithScheduler pending b).2.1 = 0 := by
  simp only [executeToolsWithScheduler]
  rcases b.scheduleError with _ | e
  · have h1 := runSchedulerUpdates_counts b.updates ⟨pending, [], []⟩
    have h2 := processAllToolCallsComplete_counts b.completed
      (runSchedulerUpdates ⟨pending, [], []⟩ b.updates).1
    simp only [countTerminal_append, countCancelled_append]
    omega
  · exact runSchedulerUpdates_counts b.updates ⟨pending, [], []⟩

/-- Postcondition of the round loop when it returns from `sendMessage`:
exactly one terminal event beyond the transform emissions of the `Error`
stream events observed, plus the last-event characterizations of the three
fatal markers. -/
def RoundsHaltDelta (ls ls2 : LoopState) : Prop :=
  countTerminal ls2.events + ls.streamErrors
      = countTerminal ls.events + ls2.streamErrors + 1 ∧
  countCancelled ls2.events ≤ countCancelled ls.events + 1 ∧
  ls.streamErrors ≤ ls2.streamErrors ∧
  (ls2.maxTurnsHit = ls.maxTurnsHit ∨
    (ls2.maxTurnsHit = true ∧
     ls2.events.getLast? = some (WebStreamEvent.error "Maximum conversation turns exceeded"))) ∧
  (ls2.exhaustedViaCatch = ls.exhaustedViaCatch ∨
    (ls2.exhaustedViaCatch = true ∧
     ls2.events.getLast? = some (WebStreamEvent.error exhaustedMessage))) ∧
  (ls2.exhaustedViaStream = ls.exhaustedViaStream ∨
    (ls2.exhaustedViaStream = true ∧
     ∃ m, ls2.events.getLast? = some (WebStreamEvent.error m) ∧ isQuotaError m = true))

/-- Postcondition of the round loop when it requests a model switch. -/
def RoundsSwitchDelta (idx : Nat) (ls ls2 : LoopState) (j : Nat) : Prop :=
  j = idx + 1 ∧ j < MODEL_FALLBACK_CHAIN.length ∧
  countTerminal ls2.events + ls.streamErrors = countTerminal ls.events + ls2.streamErrors ∧
  countCancelled ls2.events = countCancelled ls.events ∧
  ls.streamErrors ≤ ls2.streamErrors ∧
  ls2.maxTurnsHit = ls.maxTurnsHit ∧
  ls2.exhaustedViaCatch = ls.exhaustedViaCatch ∧
  ls2.exhaustedViaStream = ls.exhaustedViaStream

lemma deltaNone_egq {ls ls2 : LoopState} (h : DeltaNone ls ls2) : EventsGhostsEq ls ls2 :=
  ⟨h.1, h.2.1, h.2.2.1, h.2.2.2.2.2.2.2.2, h.2.2.2.2.1, h.2.2.2.1⟩

lemma egq_trans {ls ls2 ls3 : LoopState}
    (h1 : EventsGhostsEq ls ls2) (h2 : EventsGhostsEq ls2 ls3) : EventsGhostsEq ls ls3 := by
  obtain ⟨a1, b1, c1, d1, e1, f1⟩ := h1
  obtain ⟨a2, b2, c2, d2, e2, f2⟩ := h2
  exact ⟨a2.trans a1, b2.trans b1, c2.trans c1, d2.trans d1, e2.trans e1, f2.trans f1⟩

lemma egq_roundEntry (idx : Nat) (ls : LoopState) (cm : List Part) :
    EventsGhostsEq ls (roundEntryState idx ls cm) :=
  ⟨rfl, rfl, rfl, rfl, rfl, rfl⟩

lemma egq_toolEvents {evs : List WebStreamEvent} (ls : LoopState)
    (p : Option ToolConfirmation) (h1 : countTerminal evs = 0) (h2 : countCancelled evs = 0) :
    EventsGhostsEq ls (toolEventsState ls p evs) := by
  refine ⟨?_, ?_, rfl, rfl, rfl, rfl⟩ <;>
    simp [toolEventsState, countTerminal_append, countCancelled_append, h1, h2]

lemma egq_roundsHalt {ls ls2 ls3 : LoopState}
    (h1 : EventsGhostsEq ls ls2) (h2 : RoundsHaltDelta ls2 ls3) : RoundsHaltDelta ls ls3 := by
  obtain ⟨a1, b1, c1, d1, e1, f1⟩ := h1
  obtain ⟨a2, b2, c2, d2, e2, f2⟩ := h2
  refine ⟨by omega, by omega, by omega, ?_, ?_, ?_⟩
  · rcases d2 with d2 | d2
    · exact Or.inl (d2.trans d1)
    · exact Or.inr d2
  · rcases e2 with e2 | e2
    · exact Or.inl (e2.trans e1)
    · exact Or.inr e2
  · rcases f2 with f2 | f2
    · exact Or.inl (f2.trans f1)
    · exact Or.inr f2

lemma egq_roundsSwitch {idx : Nat} {ls ls2 ls3 : LoopState} {j : Nat}
    (h1 : EventsGhostsEq ls ls2) (h2 : RoundsSwitchDelta idx ls2 ls3 j) :
    RoundsSwitchDelta idx ls ls3 j := by
  obtain ⟨a1, b1, c1, d1, e1, f1⟩ := h1
  obtain ⟨hj, hlt, a2, b2, c2, d2, e2, f2⟩ := h2
  exact ⟨hj, hlt, by omega, by omega, by omega, d2.trans d1, e2.trans e1, f2.trans f1⟩

lemma haltDelta_rounds {ls ls2 : LoopState} (h : HaltDelta ls ls2) : RoundsHaltDelta ls ls2 := by
  obtain ⟨a, b, c, ⟨p, s, r, m⟩, e, f⟩ := h
  exact ⟨a, b, by omega, Or.inl m, Or.inl e, f⟩

lemma switchDelta_rounds {idx : Nat} {ls ls2 : LoopState} {j : Nat}
    (h : SwitchDelta idx ls ls2 j) : RoundsSwitchDelta idx ls ls2 j := by
  obtain ⟨hj, hlt, a, b, c, d, e, ⟨p, s, r, m⟩, hlast⟩ := h
  exact ⟨hj, hlt, by omega, b, by omega, m, e, d⟩

lemma catchHalt_rounds {ls ls2 : LoopState} (h : CatchHaltDelta ls ls2) :
    RoundsHaltDelta ls ls2 := by
  obtain ⟨a, b, c, ⟨p, s, r, m⟩, e, f⟩ := h
  exact ⟨by omega, b, by omega, Or.inl m, f, Or.inl e⟩

lemma catchSwitch_rounds {idx : Nat} {ls ls2 : LoopState} {j : Nat}
    (h : CatchSwitchDelta idx ls ls2 j) : RoundsSwitchDelta idx ls ls2 j := by
  obtain ⟨hj, hlt, a, b, c, d, e, ⟨p, s, r, m⟩, hlast⟩ := h
  exact ⟨hj, hlt, by omega, b, by omega, m, e, d⟩

lemma egq_finish {ls ls2 : LoopState} (h : EventsGhostsEq ls ls2) :
    RoundsHaltDelta ls { ls2 with events := ls2.events ++ [WebStreamEvent.finished] } := by
  obtain ⟨a1, b1, c1, d1, e1, f1⟩ := h
  have hx : countTerminal [WebStreamEvent.finished] = 1 := by
    simp [countTerminal, List.countP_cons, List.countP_nil, isTerminalEvent]
  have hy : countCancelled [WebStreamEvent.finished] = 0 := by
    simp [countCancelled, List.countP_cons, List.countP_nil, isCancelledEvent]
  refine ⟨?_, ?_, by dsimp only; omega, Or.inl d1, Or.inl e1, Or.inl f1⟩ <;>
    dsimp only <;> simp only [countTerminal_append, countCancelled_append] <;> omega

/-- The whole round loop satisfies the per-outcome delta. -/
lemma runRounds_spec (env : Env) (idx : Nat) :
    ∀ (fuel : Nat) (ls : LoopState) (cm : List Part),
    match runRounds env idx fuel ls cm with
    | .halt ls2 => RoundsHaltDelta ls ls2
    | .switch ls2 j => RoundsSwitchDelta idx ls ls2 j := by
  intro fuel
  induction fuel with
  | zero =>
    intro ls cm
    have hx : countTerminal [WebStreamEvent.error "Maximum conversation turns exceeded"] = 1 := by
      simp [countTerminal, List.countP_cons, List.countP_nil, isTerminalEvent]
    have hy : countCancelled [WebStreamEvent.error "Maximum conversation turns exceeded"] = 0 := by
      simp [countCancelled, List.countP_cons, List.countP_nil, isCancelledEvent]
    refine ⟨?_, ?_, le_refl _, Or.inr ⟨rfl, getLast?_append_single _ _⟩, Or.inl rfl, Or.inl rfl⟩ <;>
      simp only [countTerminal_append, countCancelled_append] <;> omega
  | succ fuel ih =>
    intro ls cm
    have hps := processStreamEvents_spec env idx (env.stream idx (ls.rounds + 1)).events
      (roundEntryState idx ls cm) []
    simp only [runRounds]
    rcases hp : processStreamEvents env idx (roundEntryState idx ls cm) []
        (env.stream idx (ls.rounds + 1)).events with ⟨ls2, reqs⟩ | ls2 | ⟨ls2, j⟩ <;>
      rw [hp] at hps
    · -- the stream was consumed without returning: DeltaNone up to ls2
      have hegq : EventsGhostsEq ls ls2 := egq_trans (egq_roundEntry idx ls cm) (deltaNone_egq hps)
      rcases ht : (env.stream idx (ls.rounds + 1)).thrown with _ | e
      · by_cases hreq : reqs.length > 0
        · simp only [if_pos hreq]
          have hcounts := executeToolsWithScheduler_counts ls2.pending (env.sched idx (ls.rounds + 1))
          rcases het : executeToolsWithScheduler ls2.pending (env.sched idx (ls.rounds + 1))
            with ⟨p2, evs, r⟩
          rw [het] at hcounts
          have hegq3 : EventsGhostsEq ls (toolEventsState ls2 p2 evs) :=
            egq_trans hegq (egq_toolEvents ls2 p2 hcounts.1 hcounts.2)
          rcases r with e | completed
          · dsimp only
            have hc := catchHandler_spec env idx (toolEventsState ls2 p2 evs) e
            rcases hcc : catchHandler env idx (toolEventsState ls2 p2 evs) e
              with ls4 | ⟨ls4, j4⟩ <;> rw [hcc] at hc
            · exact egq_roundsHalt hegq3 (catchHalt_rounds hc)
            · exact egq_roundsSwitch hegq3 (catchSwitch_rounds hc)
          · dsimp only
            have hr := ih (toolEventsState ls2 p2 evs) (buildToolResponseParts completed)
            rcases hrr : runRounds env idx fuel (toolEventsState ls2 p2 evs)
                (buildToolResponseParts completed) with ls4 | ⟨ls4, j4⟩ <;> rw [hrr] at hr
            · exact egq_roundsHalt hegq3 hr
            · exact egq_roundsSwitch hegq3 hr
        · simp only [if_neg hreq]
          exact egq_finish hegq
      · dsimp only
        have hc := catchHandler_spec env idx ls2 e
        rcases hcc : catchHandler env idx ls2 e with ls4 | ⟨ls4, j4⟩ <;> rw [hcc] at hc
        · exact egq_roundsHalt hegq (catchHalt_rounds hc)
        · exact egq_roundsSwitch hegq (catchSwitch_rounds hc)
    · exact egq_roundsHalt (egq_roundEntry idx ls cm) (haltDelta_rounds hps)
    · exact egq_roundsSwitch (egq_roundEntry idx ls cm) (switchDelta_rounds hps)

/-- The round counter grows by at most the remaining budget. -/
lemma runRounds_rounds_le (env : Env) (idx : Nat) :
    ∀ (fuel : Nat) (ls : LoopState) (cm : List Part),
    match runRounds env idx fuel ls cm with
    | .halt ls2 => ls2.rounds ≤ ls.rounds + fuel
    | .switch ls2 _ => ls2.rounds ≤ ls.rounds + fuel := by
  intro fuel
  induction fuel with
  | zero => intro ls cm; dsimp only [runRounds]; omega
  | succ fuel ih =>
    intro ls cm
    have hps := processStreamEvents_spec env idx (env.stream idx (ls.rounds + 1)).events
      (roundEntryState idx ls cm) []
    simp only [runRounds]
    rcases hp : processStreamEvents env idx (roundEntryState idx ls cm) []
        (env.stream idx (ls.rounds + 1)).events with ⟨ls2, reqs⟩ | ls2 | ⟨ls2, j⟩ <;>
      rw [hp] at hps
    · have hr2 : ls2.rounds = ls.rounds + 1 := hps.2.2.2.2.2.2.2.1
      rcases ht : (env.stream idx (ls.rounds + 1)).thrown with _ | e
      · by_cases hreq : reqs.length > 0
        · simp only [if_pos hreq]
          rcases het : executeToolsWithScheduler ls2.pending (env.sched idx (ls.rounds + 1))
            with ⟨p2, evs, r⟩
          rcases r with e | completed
          · dsimp only
            have hc := catchHandler_spec env idx (toolEventsState ls2 p2 evs) e
            rcases hcc : catchHandler env idx (toolEventsState ls2 p2 evs) e
              with ls4 | ⟨ls4, j4⟩ <;> rw [hcc] at hc
            · have : ls4.rounds = ls2.rounds := hc.2.2.2.1.2.2.1
              omega
            · have : ls4.rounds = ls2.rounds := hc.2.2.2.2.2.2.2.1.2.2.1
              omega
          · dsimp only
            have hr := ih (toolEventsState ls2 p2 evs) (buildToolResponseParts completed)
            rcases hrr : runRounds env idx fuel (toolEventsState ls2 p2 evs)
                (buildToolResponseParts completed) with ls4 | ⟨ls4, j4⟩ <;> rw [hrr] at hr <;>
              simp only [toolEventsState] at hr <;> omega
        · simp only [if_neg hreq]
          try dsimp only
          omega
      · dsimp only
        have hc := catchHandler_spec env idx ls2 e
        rcases hcc : catchHandler env idx ls2 e with ls4 | ⟨ls4, j4⟩ <;> rw [hcc] at hc
        · have : ls4.rounds = ls2.rounds := hc.2.2.2.1.2.2.1
          omega
        · have : ls4.rounds = ls2.rounds := hc.2.2.2.2.2.2.2.1.2.2.1
          omega
    · have : ls2.rounds = ls.rounds + 1 := hps.2.2.2.1.2.2.1
      omega
    · have : ls2.rounds = ls.rounds + 1 := hps.2.2.2.2.2.2.2.1.2.2.1
      omega

/-- Every model-session invocation recorded with `turnCount = 1` carried the
original user message. -/
def SentOk (m : String) (l : List (Nat × Nat × List Part)) : Prop :=
  ∀ i t mm, (i, t, mm) ∈ l → t = 1 → mm = [Part.text m]

lemma sentOk_entry {m : String} {ls : LoopState} {cm : List Part} (idx : Nat)
    (hS : SentOk m ls.sent) (hcm : ls.rounds = 0 → cm = [Part.text m]) :
    SentOk m (ls.sent ++ [(idx, ls.rounds + 1, cm)]) := by
  intro i t mm hmem ht1
  rcases List.mem_append.mp hmem with hmem | hmem
  · exact hS i t mm hmem ht1
  · simp only [List.mem_singleton, Prod.mk.injEq] at hmem
    obtain ⟨_, h2, h3⟩ := hmem
    subst h3
    exact hcm (by omega)

/-- The `turnCount = 1` rounds are exactly the (re)starts of the user turn,
and they always carry the original user message. -/
lemma runRounds_sent (env : Env) (idx : Nat) (m : String) :
    ∀ (fuel : Nat) (ls : LoopState) (cm : List Part),
    SentOk m ls.sent → (ls.rounds = 0 → cm = [Part.text m]) →
    match runRounds env idx fuel ls cm with
    | .halt ls2 => SentOk m ls2.sent
    | .switch ls2 _ => SentOk m ls2.sent := by
  intro fuel
  induction fuel with
  | zero => intro ls cm hS hcm; dsimp only [runRounds]; exact hS
  | succ fuel ih =>
    intro ls cm hS hcm
    have hentry : SentOk m (roundEntryState idx ls cm).sent := by
      simp only [roundEntryState]
      exact sentOk_entry idx hS hcm
    have hps := processStreamEvents_spec env idx (env.stream idx (ls.rounds + 1)).events
      (roundEntryState idx ls cm) []
    simp only [runRounds]
    rcases hp : processStreamEvents env idx (roundEntryState idx ls cm) []
        (env.stream idx (ls.rounds + 1)).events with ⟨ls2, reqs⟩ | ls2 | ⟨ls2, j⟩ <;>
      rw [hp] at hps
    · have hsent2 : ls2.sent = (roundEntryState idx ls cm).sent := hps.2.2.2.2.2.2.1
      have hr2 : ls2.rounds = ls.rounds + 1 := hps.2.2.2.2.2.2.2.1
      have hS2 : SentOk m ls2.sent := hsent2 ▸ hentry
      rcases ht : (env.stream idx (ls.rounds + 1)).thrown with _ | e
      · by_cases hreq : reqs.length > 0
        · simp only [if_pos hreq]
          rcases het : executeToolsWithScheduler ls2.pending (env.sched idx (ls.rounds + 1))
            with ⟨p2, evs, r⟩
          rcases r with e | completed
          · dsimp only
            have hc := catchHandler_spec env idx (toolEventsState ls2 p2 evs) e
            rcases hcc : catchHandler env idx (toolEventsState ls2 p2 evs) e
              with ls4 | ⟨ls4, j4⟩ <;> rw [hcc] at hc
            · have h4 : ls4.sent = (toolEventsState ls2 p2 evs).sent := hc.2.2.2.1.2.1
              simpa [h4, toolEventsState] using hS2
            · have h4 : ls4.sent = (toolEventsState ls2 p2 evs).sent := hc.2.2.2.2.2.2.2.1.2.1
              simpa [h4, toolEventsState] using hS2
          · dsimp only
            have hr := ih (toolEventsState ls2 p2 evs) (buildToolResponseParts completed)
              (by simpa [toolEventsState] using hS2)
              (by simp only [toolEventsState]; omega)
            exact hr
        · simp only [if_neg hreq]
          try dsimp only
          exact hS2
      · dsimp only
        have hc := catchHandler_spec env idx ls2 e
        rcases hcc : catchHandler env idx ls2 e with ls4 | ⟨ls4, j4⟩ <;> rw [hcc] at hc
        · have h4 : ls4.sent = ls2.sent := hc.2.2.2.1.2.1
          show SentOk m ls4.sent
          rw [h4]
          exact hS2
        · have h4 : ls4.sent = ls2.sent := hc.2.2.2.2.2.2.2.1.2.1
          show SentOk m ls4.sent
          rw [h4]
          exact hS2
    · have h2 : ls2.sent = (roundEntryState idx ls cm).sent := hps.2.2.2.1.2.1
      show SentOk m ls2.sent
      rw [h2]
      exact hentry
    · have h2 : ls2.sent = (roundEntryState idx ls cm).sent := hps.2.2.2.2.2.2.2.1.2.1
      show SentOk m ls2.sent
      rw [h2]
      exact hentry

/-- Master invariant of the restart recursion: with at least the remaining
fallback-chain slack as fuel, the recursion never runs out of fuel, emits
exactly one terminal event beyond the transform emissions of the observed
`Error` stream events, emits at most one `cancelled`, each attempt runs at
most `maxTurns` rounds, the number of attempts is bounded by the fuel, and
each fatal ghost marker implies its characteristic final event. -/
lemma runAttempts_spec (env : Env) (m : String) :
    ∀ (fuel idx : Nat) (ls : LoopState),
    MODEL_FALLBACK_CHAIN.length ≤ fuel + idx →
    idx < MODEL_FALLBACK_CHAIN.length →
    (runAttempts env m fuel idx ls).fuelExhausted = false ∧
    countTerminal (runAttempts env m fuel idx ls).finalLs.events + ls.streamErrors
      = countTerminal ls.events + (runAttempts env m fuel idx ls).finalLs.streamErrors + 1 ∧
    countCancelled (runAttempts env m fuel idx ls).finalLs.events
      ≤ countCancelled ls.events + 1 ∧
    ((runAttempts env m fuel idx ls).finalLs.maxTurnsHit = ls.maxTurnsHit ∨
      ((runAttempts env m fuel idx ls).finalLs.maxTurnsHit = true ∧
       (runAttempts env m fuel idx ls).finalLs.events.getLast?
         = some (WebStreamEvent.error "Maximum conversation turns exceeded"))) ∧
    ((runAttempts env m fuel idx ls).finalLs.exhaustedViaCatch = ls.exhaustedViaCatch ∨
      ((runAttempts env m fuel idx ls).finalLs.exhaustedViaCatch = true ∧
       (runAttempts env m fuel idx ls).finalLs.events.getLast?
         = some (WebStreamEvent.error exhaustedMessage))) ∧
    ((runAttempts env m fuel idx ls).finalLs.exhaustedViaStream = ls.exhaustedViaStream ∨
      ((runAttempts env m fuel idx ls).finalLs.exhaustedViaStream = true ∧
       ∃ emsg, (runAttempts env m fuel idx ls).finalLs.events.getLast?
           = some (WebStreamEvent.error emsg) ∧ isQuotaError emsg = true)) ∧
    (∀ n ∈ (runAttempts env m fuel idx ls).roundsPerAttempt, n ≤ maxTurns) ∧
    (runAttempts env m fuel idx ls).roundsPerAttempt.length ≤ fuel := by
  intro fuel
  induction fuel with
  | zero => intro idx ls hf hi; omega
  | succ fuel ih =>
    intro idx ls hf hi
    have hr := runRounds_spec env idx maxTurns { ls with time := 0, rounds := 0 } [Part.text m]
    have hrle := runRounds_rounds_le env idx maxTurns { ls with time := 0, rounds := 0 }
      [Part.text m]
    simp only [runAttempts]
    rcases hrr : runRounds env idx maxTurns { ls with time := 0, rounds := 0 } [Part.text m]
      with ls1 | ⟨ls1, j⟩ <;> rw [hrr] at hr hrle
    · obtain ⟨ha, hb, hc, hd, he, hg⟩ := hr
      simp only [LoopState.mk.injEq] at ha hb hc hd he hg hrle
      refine ⟨rfl, by dsimp only at ha ⊢; omega, by dsimp only at hc ⊢; omega, ?_, ?_, ?_, ?_, ?_⟩
      · dsimp only
        rcases hd with hd | hd
        · exact Or.inl hd
        · exact Or.inr hd
      · dsimp only
        rcases he with he | he
        · exact Or.inl he
        · exact Or.inr he
      · dsimp only
        rcases hg with hg | hg
        · exact Or.inl hg
        · exact Or.inr hg
      · intro n hn
        dsimp only at hn
        simp only [List.mem_singleton] at hn
        subst hn
        omega
      · dsimp only
        simp only [List.length_cons, List.length_nil]
        omega
    · obtain ⟨hj, hjlt, ha, hb, hc, hd, he, hg⟩ := hr
      have hihj := ih j ls1 (by omega) hjlt
      obtain ⟨i1, i2, i3, i4, i5, i6, i7, i8⟩ := hihj
      dsimp only at ha hb hc hd he hg hrle ⊢
      refine ⟨i1, by omega, by omega, ?_, ?_, ?_, ?_, by simp only [List.length_cons]; omega⟩
      · rcases i4 with i4 | i4
        · exact Or.inl (by rw [i4, hd])
        · exact Or.inr i4
      · rcases i5 with i5 | i5
        · exact Or.inl (by rw [i5, he])
        · exact Or.inr i5
      · rcases i6 with i6 | i6
        · exact Or.inl (by rw [i6, hg])
        · exact Or.inr i6
      · intro n hn
        simp only [List.mem_cons] at hn
        rcases hn with hn | hn
        · subst hn
          omega
        · exact i7 n hn

/-- Every attempt of the restart recursion reopens round 1 with the original
user message. -/
lemma runAttempts_sent (env : Env) (m : String) :
    ∀ (fuel idx : Nat) (ls : LoopState), SentOk m ls.sent →
    SentOk m (runAttempts env m fuel idx ls).finalLs.sent := by
  intro fuel
  induction fuel with
  | zero => intro idx ls hS; exact hS
  | succ fuel ih =>
    intro idx ls hS
    have hr := runRounds_sent env idx m maxTurns { ls with time := 0, rounds := 0 }
      [Part.text m] hS (fun _ => rfl)
    simp only [runAttempts]
    rcases hrr : runRounds env idx maxTurns { ls with time := 0, rounds := 0 } [Part.text m]
      with ls1 | ⟨ls1, j⟩ <;> rw [hrr] at hr
    · exact hr
    · exact ih j ls1 hr

/-- The update handler changes the pending slot only by filling it when it
was empty on an `awaiting_approval` status. -/
lemma processToolUpdate_pending_write (st : SchedulerState) (tc : ToolCallUpdate) :
    (processToolUpdate st tc).1.pending = st.pending ∨
    (st.pending = none ∧ tc.status = "awaiting_approval") := by
  simp only [processToolUpdate]
  by_cases h1 : tc.status = "awaiting_approval" ∧ st.pending = none
  · simp only [if_pos h1]
    split_ifs <;> exact Or.inr ⟨h1.2, h1.1⟩
  · simp only [if_neg h1]
    split_ifs <;> exact Or.inl rfl

/-- With a confirmation already pending, the update handler neither
overwrites the slot nor emits another `tool_confirm_request`. -/
lemma processToolUpdate_pending_some (st : SchedulerState) (tc : ToolCallUpdate)
    (c : ToolConfirmation) (h : st.pending = some c) :
    (processToolUpdate st tc).1.pending = some c ∧
    countConfirmRequests (processToolUpdate st tc).2 = 0 := by
  simp only [processToolUpdate]
  have h1 : ¬(tc.status = "awaiting_approval" ∧ st.pending = none) := by
    rintro ⟨_, hn⟩
    rw [h] at hn
    exact Option.noConfusion hn
  simp only [if_neg h1]
  split_ifs <;>
    exact ⟨h, by simp [countConfirmRequests, List.countP_cons, List.countP_nil,
                       isConfirmRequestEvent]⟩

lemma processToolUpdates_pending_some :
    ∀ (l : List ToolCallUpdate) (st : SchedulerState) (c : ToolConfirmation),
    st.pending = some c →
    (processToolUpdates st l).1.pending = some c ∧
    countConfirmRequests (processToolUpdates st l).2 = 0 := by
  intro l
  induction l with
  | nil => intro st c h; exact ⟨h, rfl⟩
  | cons tc rest ih =>
    intro st c h
    have h1 := processToolUpdate_pending_some st tc c h
    have h2 := ih (processToolUpdate st tc).1 c h1.1
    simp only [processToolUpdates, countConfirmRequests_append]
    exact ⟨h2.1, by omega⟩

lemma runSchedulerUpdates_pending_some :
    ∀ (l : List (List ToolCallUpdate)) (st : SchedulerState) (c : ToolConfirmation),
    st.pending = some c →
    (runSchedulerUpdates st l).1.pending = some c ∧
    countConfirmRequests (runSchedulerUpdates st l).2 = 0 := by
  intro l
  induction l with
  | nil => intro st c h; exact ⟨h, rfl⟩
  | cons batch rest ih =>
    intro st c h
    have h1 := processToolUpdates_pending_some batch st c h
    have h2 := ih (processToolUpdates st batch).1 c h1.1
    simp only [runSchedulerUpdates, countConfirmRequests_append]
    exact ⟨h2.1, by omega⟩

/-- The completion callback never touches the pending slot and never emits a
confirmation request. -/
lemma processAllToolCallsComplete_pending :
    ∀ (l : List CompletedToolCall) (st : SchedulerState),
    (processAllToolCallsComplete st l).1.pending = st.pending ∧
    countConfirmRequests (processAllToolCallsComplete st l).2 = 0 := by
  intro l
  induction l with
  | nil => intro st; exact ⟨rfl, rfl⟩
  | cons call rest ih =>
    intro st
    simp only [processAllToolCallsComplete]
    split_ifs with h
    · have h2 := ih { st with reportedSuccess := st.reportedSuccess ++ [call.request.callId] }
      simp only [countConfirmRequests_append]
      refine ⟨h2.1, ?_⟩
      have hx : countConfirmRequests
          [WebStreamEvent.tool_result call.request.name (schedulerResult call.response)] = 0 := by
        simp [countConfirmRequests, List.countP_cons, List.countP_nil, isConfirmRequestEvent]
      omega
    · have h2 := ih st
      simp only [countConfirmRequests_append]
      have hx : countConfirmRequests ([] : List WebStreamEvent) = 0 := rfl
      exact ⟨h2.1, by omega⟩

lemma executeToolsWithScheduler_pending_some (p : Option ToolConfirmation) (b : SchedBehavior)
    (c : ToolConfirmation) (h : p = some c) :
    (executeToolsWithScheduler p b).1 = some c ∧
    countConfirmRequests (executeToolsWithScheduler p b).2.1 = 0 := by
  simp only [executeToolsWithScheduler]
  have h1 := runSchedulerUpdates_pending_some b.updates ⟨p, [], []⟩ c h
  rcases hse : b.scheduleError with _ | e
  · have h2 := processAllToolCallsComplete_pending b.completed
      (runSchedulerUpdates ⟨p, [], []⟩ b.updates).1
    simp only [countConfirmRequests_append]
    exact ⟨by rw [h2.1]; exact h1.1, by omega⟩
  · exact h1

/-- The `finally` path of `sendMessage` always leaves the session without an
abort controller. -/
lemma sendMessage_clears_abortController (env : Env) (m : String)
    (st : SessionManagerState) (s : WebSession) (h : st.session = some s) :
    ∃ s2, (sendMessage st env m).2.1.session = some s2 ∧ s2.abortController = none := by
  simp only [sendMessage, h]
  exact ⟨_, rfl, rfl⟩

/-! Concrete collaborator behaviours used to witness and refute claims. -/

/-- A scheduler that reports nothing and completes with no calls. -/
def emptySched : SchedBehavior := ⟨[], [], none⟩

/-- Round 1 yields a single non-quota `Error` stream event. -/
def envTransportError : Env :=
  { stream := fun _ t =>
      if t = 1 then ⟨[GeminiStreamEvent.error "boom failure" "Error: boom failure"], none⟩
      else ⟨[], none⟩,
    sched := fun _ _ => emptySched,
    abortFires := fun _ => none }

/-- A quota `Error` stream event on the strongest model, a clean one-round
answer on every other model. -/
def envQuotaThenOk : Env :=
  { stream := fun i _ =>
      if i = 0 then ⟨[GeminiStreamEvent.error "quota exceeded" "Error: quota exceeded"], none⟩
      else ⟨[GeminiStreamEvent.content (some "done on flash")], none⟩,
    sched := fun _ _ => emptySched,
    abortFires := fun _ => none }

/-- A quota `Error` stream event on every model. -/
def envQuotaAlways : Env :=
  { stream := fun _ _ => ⟨[GeminiStreamEvent.error "quota exceeded" "Error: quota exceeded"], none⟩,
    sched := fun _ _ => emptySched,
    abortFires := fun _ => none }

/-- A thrown quota error on every model (the stream raises instead of
yielding an `Error` event). -/
def envQuotaThrownAlways : Env :=
  { stream := fun _ _ => ⟨[], some ⟨"quota hit", "Error: quota hit"⟩⟩,
    sched := fun _ _ => emptySched,
    abortFires := fun _ => none }

/-- A model that requests one tool in every round, forever. -/
def envToolsForever : Env :=
  { stream := fun _ _ => ⟨[GeminiStreamEvent.toolCallRequest ⟨"call-ls", "ls", []⟩], none⟩,
    sched := fun _ _ => emptySched,
    abortFires := fun _ => none }

/-- A plain content stream whose abort signal is already fired at the first
check. -/
def envAbortNow : Env :=
  { stream := fun _ _ => ⟨[GeminiStreamEvent.content (some "partial")], none⟩,
    sched := fun _ _ => emptySched,
    abortFires := fun _ => some 0 }

/-- The failing input of the reconciliation claim: one successful call whose
scheduler response carries two response parts. -/
def c1Request : ToolCallRequestInfo := ⟨"call-1", "read_file", []⟩

def c1TwoPartResponse : ToolCallResponseInfo :=
  ⟨some [Part.text "file chunk 1", Part.text "file chunk 2"], none, none, none, "json"⟩

def c1Call : CompletedToolCall := ⟨c1Request, ToolCallStatus.success, some c1TwoPartResponse⟩

/-- C1.  The reconciliation loop of `sendMessage` does not guarantee one
response part per request: a success call whose `responseParts` holds two
parts contributes both of them verbatim, so a round with one request feeds
two response parts into the next round (the source only logs a warning at
the count-mismatch check, contradicting its own comment that the API
requires exactly one function response per function call).  The fallback
synthesis for cancelled and failed calls does carry the claimed error
texts. -/
theorem C1_reconciliation_at_failing_input :
    buildToolResponseParts [c1Call] = [Part.text "file chunk 1", Part.text "file chunk 2"] ∧
    (buildToolResponseParts [c1Call]).length = 2 ∧
    [c1Call].length = 1 ∧
    buildToolResponseParts [⟨c1Request, ToolCallStatus.cancelled, none⟩]
      = [Part.functionResponse "read_file" "Tool execution was cancelled"] ∧
    buildToolResponseParts [⟨c1Request, ToolCallStatus.error, none⟩]
      = [Part.functionResponse "read_file" "Tool execution failed or returned no response"] := by
  decide

/-- C2 counterexample.  A terminal non-quota `Error` stream event produces
two `error` observer events — one from the event transform, one from the
error handler — not the single terminal event the claim demands. -/
theorem C2_counterexample_two_error_events :
    (sendMessageRun envTransportError "hi" 0 none).finalLs.events
      = [WebStreamEvent.error "boom failure", WebStreamEvent.error "boom failure"] ∧
    countTerminal (sendMessageRun envTransportError "hi" 0 none).finalLs.events = 2 := by
  decide

/-- C2 amended.  `sendMessage` never returns without a terminal observer
event: the number of terminal events over the whole turn is exactly one plus
the number of `Error` stream events observed (each of which the transform
also forwards as an `error` observer event), hence at least one. -/
theorem C2_terminal_event_accounting :
    ∀ (env : Env) (m : String) (idx : Nat) (p : Option ToolConfirmation),
    idx < MODEL_FALLBACK_CHAIN.length →
    countTerminal (sendMessageRun env m idx p).finalLs.events
      = (sendMessageRun env m idx p).finalLs.streamErrors + 1 ∧
    1 ≤ countTerminal (sendMessageRun env m idx p).finalLs.events := by
  intro env m idx p h
  have hs := runAttempts_spec env m (MODEL_FALLBACK_CHAIN.length - idx) idx
    (initialLoopState p) (by omega) h
  obtain ⟨_, h2, _⟩ := hs
  simp only [sendMessageRun]
  have he : (initialLoopState p).streamErrors = 0 := rfl
  have hev : countTerminal (initialLoopState p).events = 0 := rfl
  constructor <;> omega

theorem C2_terminal_event_accounting_witness :
    0 < MODEL_FALLBACK_CHAIN.length ∧
    (countTerminal (sendMessageRun envQuotaThenOk "list files" 0 none).finalLs.events
      = (sendMessageRun envQuotaThenOk "list files" 0 none).finalLs.streamErrors + 1 ∧
     1 ≤ countTerminal (sendMessageRun envQuotaThenOk "list files" 0 none).finalLs.events) :=
  ⟨by decide, C2_terminal_event_accounting envQuotaThenOk "list files" 0 none (by decide)⟩

/-- C3.  The turn loop executes at most `maxTurns = 50` rounds per loop
activation, and when the budget runs out on a still-tool-requesting model the
last emitted observer event is the fatal
`'Maximum conversation turns exceeded'` error. -/
theorem C3_round_budget :
    ∀ (env : Env) (m : String) (idx : Nat) (p : Option ToolConfirmation),
    idx < MODEL_FALLBACK_CHAIN.length →
    (∀ n ∈ (sendMessageRun env m idx p).roundsPerAttempt, n ≤ maxTurns) ∧
    ((sendMessageRun env m idx p).finalLs.maxTurnsHit = true →
      (sendMessageRun env m idx p).finalLs.events.getLast?
        = some (WebStreamEvent.error "Maximum conversation turns exceeded")) := by
  intro env m idx p h
  have hs := runAttempts_spec env m (MODEL_FALLBACK_CHAIN.length - idx) idx
    (initialLoopState p) (by omega) h
  obtain ⟨_, _, _, h4, _, _, h7, _⟩ := hs
  simp only [sendMessageRun]
  refine ⟨h7, ?_⟩
  intro hmt
  rcases h4 with h4 | h4
  · rw [hmt] at h4
    simp [initialLoopState] at h4
  · exact h4.2

theorem C3_round_budget_witness :
    0 < MODEL_FALLBACK_CHAIN.length ∧
    (sendMessageRun envToolsForever "m" 0 none).finalLs.maxTurnsHit = true ∧
    ((∀ n ∈ (sendMessageRun envToolsForever "m" 0 none).roundsPerAttempt, n ≤ maxTurns) ∧
     ((sendMessageRun envToolsForever "m" 0 none).finalLs.maxTurnsHit = true →
       (sendMessageRun envToolsForever "m" 0 none).finalLs.events.getLast?
         = some (WebStreamEvent.error "Maximum conversation turns exceeded"))) :=
  ⟨by decide, by decide, C3_round_budget envToolsForever "m" 0 none (by decide)⟩

/-- C4 counterexample.  A quota `Error` stream event that is successfully
recovered by the fallback still produces an `error` observer event: the
transform forwards it before the quota check runs.  The recovered run is
`error`, switch notice, the new model's answer, `finished` — not the
error-free sequence the claim demands. -/
theorem C4_counterexample_error_event_on_recovered_quota :
    (sendMessageRun envQuotaThenOk "m" 0 none).finalLs.events
      = [WebStreamEvent.error "quota exceeded",
         WebStreamEvent.content (switchNotice "gemini-2.5-pro" "gemini-2.5-flash"),
         WebStreamEvent.content "done on flash",
         WebStreamEvent.finished] ∧
    countTerminal (sendMessageRun envQuotaThenOk "m" 0 none).finalLs.events = 2 := by
  decide

/-- C4 amended.  On a quota error with fallback available the loop advances
the model index by exactly one, publishes the switch notice as its last
emission before restarting, restarts every attempt from round 1 with the
original user message, is bounded by the fallback-chain length (the restart
fuel is never exhausted and the number of attempts is at most the remaining
chain slack), and the abort controller is cleared when `sendMessage`
returns; however, when the quota error arrives as a stream `Error` event the
event transform has already emitted an `error` observer event for it. -/
theorem C4_quota_fallback_restart :
    (∀ idx : Nat, idx + 1 < MODEL_FALLBACK_CHAIN.length →
      switchToNextModel idx = (true, idx + 1)) ∧
    (∀ (env : Env) (idx : Nat) (ls : LoopState) (reqs : List ToolCallRequestInfo)
       (e : GeminiStreamEvent) (ls2 : LoopState) (j : Nat),
      handleStreamEvent env idx ls reqs e = EventStep.switchModel ls2 j →
      j = idx + 1 ∧ j < MODEL_FALLBACK_CHAIN.length ∧
      ls2.events.getLast?
        = some (WebStreamEvent.content (switchNotice (getCurrentModel idx) (getCurrentModel j)))) ∧
    (∀ (env : Env) (idx : Nat) (ls : LoopState) (e : ThrownError) (ls2 : LoopState) (j : Nat),
      catchHandler env idx ls e = RoundsOutcome.switch ls2 j →
      j = idx + 1 ∧ j < MODEL_FALLBACK_CHAIN.length ∧
      ls2.events.getLast?
        = some (WebStreamEvent.content (switchNotice (getCurrentModel idx) (getCurrentModel j)))) ∧
    (∀ (env : Env) (m : String) (idx : Nat) (p : Option ToolConfirmation),
      idx < MODEL_FALLBACK_CHAIN.length →
      (sendMessageRun env m idx p).fuelExhausted = false ∧
      (sendMessageRun env m idx p).roundsPerAttempt.length
        ≤ MODEL_FALLBACK_CHAIN.length - idx ∧
      SentOk m (sendMessageRun env m idx p).finalLs.sent) ∧
    (∀ (env : Env) (m : String) (st : SessionManagerState) (s : WebSession),
      st.session = some s →
      ∃ s2, (sendMessage st env m).2.1.session = some s2 ∧ s2.abortController = none) := by
  refine ⟨?_, ?_, ?_, ?_, fun env m st s h => sendMessage_clears_abortController env m st s h⟩
  · intro idx h
    unfold switchToNextModel
    rw [if_neg (by omega)]
  · intro env idx ls reqs e ls2 j hh
    have h := handleStreamEvent_spec env idx ls reqs e
    rw [hh] at h
    exact ⟨h.1, h.2.1, h.2.2.2.2.2.2.2.2⟩
  · intro env idx ls e ls2 j hh
    have h := catchHandler_spec env idx ls e
    rw [hh] at h
    exact ⟨h.1, h.2.1, h.2.2.2.2.2.2.2.2⟩
  · intro env m idx p h
    have hs := runAttempts_spec env m (MODEL_FALLBACK_CHAIN.length - idx) idx
      (initialLoopState p) (by omega) h
    have hsent := runAttempts_sent env m (MODEL_FALLBACK_CHAIN.length - idx) idx
      (initialLoopState p) (by intro i t mm hmem; simp [initialLoopState] at hmem)
    exact ⟨hs.1, hs.2.2.2.2.2.2.2, hsent⟩

theorem C4_quota_fallback_restart_witness :
    (0 < MODEL_FALLBACK_CHAIN.length ∧
     ((sendMessageRun envQuotaThenOk "m" 0 none).fuelExhausted = false ∧
      (sendMessageRun envQuotaThenOk "m" 0 none).roundsPerAttempt.length
        ≤ MODEL_FALLBACK_CHAIN.length - 0 ∧
      SentOk "m" (sendMessageRun envQuotaThenOk "m" 0 none).finalLs.sent)) ∧
    (∃ s2, (sendMessage ⟨some ⟨"sid", "/proj", 0, none⟩, none⟩ envQuotaThenOk "m").2.1.session
        = some s2 ∧ s2.abortController = none) :=
  ⟨⟨by decide, C4_quota_fallback_restart.2.2.2.1 envQuotaThenOk "m" 0 none (by decide)⟩,
   C4_quota_fallback_restart.2.2.2.2 envQuotaThenOk "m" ⟨some ⟨"sid", "/proj", 0, none⟩, none⟩
     ⟨"sid", "/proj", 0, none⟩ rfl⟩

/-- C5 counterexample.  When the quota error at the end of the chain arrives
as a stream `Error` event, the loop emits two plain `error` events carrying
the provider message — not one event naming every model of the chain (the
message does not even contain the substring `gemini`). -/
theorem C5_counterexample_stream_path_exhaustion :
    (sendMessageRun envQuotaAlways "m" 3 none).finalLs.events
      = [WebStreamEvent.error "quota exceeded", WebStreamEvent.error "quota exceeded"] ∧
    strContains "quota exceeded" "gemini" = false ∧
    (sendMessageRun envQuotaAlways "m" 3 none).finalLs.exhaustedViaStream = true := by
  decide

/-- C5 amended.  The exhaustion message of the catch path names every model
of the fallback chain, and whenever the catch path handles a quota error
with the chain exhausted the run ends with exactly that error event; when
the exhaustion is reached on the stream path instead, the run ends with the
provider's own quota error message (the chain is not named there, and the
transform has already emitted a second `error` event).  In both cases the
turn ends with a terminal event — never a silent hang. -/
theorem C5_fallback_exhaustion_surfaced :
    (∀ mdl ∈ MODEL_FALLBACK_CHAIN, strContains exhaustedMessage mdl = true) ∧
    ∀ (env : Env) (m : String) (idx : Nat) (p : Option ToolConfirmation),
    idx < MODEL_FALLBACK_CHAIN.length →
    ((sendMessageRun env m idx p).finalLs.exhaustedViaCatch = true →
      (sendMessageRun env m idx p).finalLs.events.getLast?
        = some (WebStreamEvent.error exhaustedMessage)) ∧
    ((sendMessageRun env m idx p).finalLs.exhaustedViaStream = true →
      ∃ emsg, (sendMessageRun env m idx p).finalLs.events.getLast?
          = some (WebStreamEvent.error emsg) ∧ isQuotaError emsg = true) ∧
    countTerminal (sendMessageRun env m idx p).finalLs.events
      = (sendMessageRun env m idx p).finalLs.streamErrors + 1 := by
  refine ⟨by decide, ?_⟩
  intro env m idx p h
  have hs := runAttempts_spec env m (MODEL_FALLBACK_CHAIN.length - idx) idx
    (initialLoopState p) (by omega) h
  obtain ⟨_, h2, _, _, h5, h6, _, _⟩ := hs
  simp only [sendMessageRun]
  refine ⟨?_, ?_, ?_⟩
  · intro hc
    rcases h5 with h5 | h5
    · rw [hc] at h5
      simp [initialLoopState] at h5
    · exact h5.2
  · intro hstr
    rcases h6 with h6 | h6
    · rw [hstr] at h6
      simp [initialLoopState] at h6
    · exact h6.2
  · have he : (initialLoopState p).streamErrors = 0 := rfl
    have hev : countTerminal (initialLoopState p).events = 0 := rfl
    omega

theorem C5_fallback_exhaustion_surfaced_witness :
    3 < MODEL_FALLBACK_CHAIN.length ∧
    (sendMessageRun envQuotaThrownAlways "m" 3 none).finalLs.exhaustedViaCatch = true ∧
    (((sendMessageRun envQuotaThrownAlways "m" 3 none).finalLs.exhaustedViaCatch = true →
       (sendMessageRun envQuotaThrownAlways "m" 3 none).finalLs.events.getLast?
         = some (WebStreamEvent.error exhaustedMessage)) ∧
     ((sendMessageRun envQuotaThrownAlways "m" 3 none).finalLs.exhaustedViaStream = true →
       ∃ emsg, (sendMessageRun envQuotaThrownAlways "m" 3 none).finalLs.events.getLast?
           = some (WebStreamEvent.error emsg) ∧ isQuotaError emsg = true) ∧
     countTerminal (sendMessageRun envQuotaThrownAlways "m" 3 none).finalLs.events
       = (sendMessageRun envQuotaThrownAlways "m" 3 none).finalLs.streamErrors + 1) :=
  ⟨by decide, by decide,
   C5_fallback_exhaustion_surfaced.2 envQuotaThrownAlways "m" 3 none (by decide)⟩

/-- C6.  At most one tool confirmation is pending: while one is pending the
update handler neither overwrites the slot nor emits a second
`tool_confirm_request` (also across a whole scheduler batch); the slot is
written only when empty and only on an `awaiting_approval` status; the
completion callback never touches it; and it is cleared exactly by
`confirmTool`, which resolves with `ProceedOnce`/`Cancel` and is a warning
no-op when nothing is pending. -/
theorem C6_single_pending_confirmation :
    (∀ (st : SchedulerState) (tc : ToolCallUpdate) (c : ToolConfirmation),
      st.pending = some c →
      (processToolUpdate st tc).1.pending = some c ∧
      countConfirmRequests (processToolUpdate st tc).2 = 0) ∧
    (∀ (st : SchedulerState) (tc : ToolCallUpdate),
      (processToolUpdate st tc).1.pending = st.pending ∨
      (st.pending = none ∧ tc.status = "awaiting_approval")) ∧
    (∀ (st : SchedulerState) (l : List CompletedToolCall),
      (processAllToolCallsComplete st l).1.pending = st.pending) ∧
    (∀ (p : Option ToolConfirmation) (b : SchedBehavior) (c : ToolConfirmation),
      p = some c →
      (executeToolsWithScheduler p b).1 = some c ∧
      countConfirmRequests (executeToolsWithScheduler p b).2.1 = 0) ∧
    (∀ (c : ToolConfirmation) (confirmed : Bool),
      confirmTool (some c) confirmed
        = (none, some (if confirmed then ToolConfirmationOutcome.proceedOnce
                       else ToolConfirmationOutcome.cancel))) ∧
    (∀ confirmed : Bool, confirmTool none confirmed = (none, none)) := by
  refine ⟨?_, ?_, ?_, ?_, fun c confirmed => rfl, fun confirmed => rfl⟩
  · intro st tc c h
    exact processToolUpdate_pending_some st tc c h
  · intro st tc
    exact processToolUpdate_pending_write st tc
  · intro st l
    exact (processAllToolCallsComplete_pending l st).1
  · intro p b c h
    exact executeToolsWithScheduler_pending_some p b c h

def c6Details : ConfirmationDetails := ⟨"exec", none⟩

def c6Confirm : ToolConfirmation := ⟨"shell", [("cmd", "rm -rf .")], c6Details⟩

def c6State : SchedulerState := ⟨some c6Confirm, [], []⟩

def c6Update : ToolCallUpdate :=
  ⟨⟨"call-2", "shell", [("cmd", "rm -rf .")]⟩, "awaiting_approval", c6Details, none⟩

theorem C6_single_pending_confirmation_witness :
    ((processToolUpdate c6State c6Update).1.pending = some c6Confirm ∧
     countConfirmRequests (processToolUpdate c6State c6Update).2 = 0) ∧
    ((executeToolsWithScheduler (some c6Confirm) emptySched).1 = some c6Confirm ∧
     countConfirmRequests (executeToolsWithScheduler (some c6Confirm) emptySched).2.1 = 0) :=
  ⟨C6_single_pending_confirmation.1 c6State c6Update c6Confirm rfl,
   C6_single_pending_confirmation.2.2.2.1 (some c6Confirm) emptySched c6Confirm rfl⟩

/-- C7.  The event transform is a total pure function (it is a Lean
function): `Content`, `Thought`, `ToolCallRequest`, `Error` and
`ChatCompressed` map to the claimed observer events (a null content text
maps to the empty string), and every unlisted event kind maps to `none`
instead of throwing. -/
theorem C7_transform_event_table :
    (∀ t, transformEvent (GeminiStreamEvent.content (some t))
        = some (WebStreamEvent.content t)) ∧
    (transformEvent (GeminiStreamEvent.content none) = some (WebStreamEvent.content "")) ∧
    (∀ s d, transformEvent (GeminiStreamEvent.thought s d)
        = some (WebStreamEvent.thought (s ++ ": " ++ d))) ∧
    (∀ v, transformEvent (GeminiStreamEvent.toolCallRequest v)
        = some (WebStreamEvent.tool_call v.name v.args)) ∧
    (∀ m f, transformEvent (GeminiStreamEvent.error m f) = some (WebStreamEvent.error m)) ∧
    (transformEvent GeminiStreamEvent.chatCompressed = some WebStreamEvent.chat_compressed) ∧
    (∀ k, transformEvent (GeminiStreamEvent.unknown k) = none) :=
  ⟨fun _ => rfl, rfl, fun _ _ => rfl, fun _ => rfl, fun _ _ => rfl, rfl, fun _ => rfl⟩

/-- C8.  Cancellation is idempotent (firing the same controller twice equals
firing it once), a no-op when no session or no controller exists, the whole
turn emits at most one `cancelled` observer event, and at the first stream
event observed with the signal fired the loop emits `cancelled` and returns
without processing the remaining events. -/
theorem C8_cancellation_idempotent :
    (∀ st : SessionManagerState,
      cancelCurrentRequest (cancelCurrentRequest st) = cancelCurrentRequest st) ∧
    (∀ st : SessionManagerState, st.session = none → cancelCurrentRequest st = st) ∧
    (∀ (st : SessionManagerState) (s : WebSession),
      st.session = some s → s.abortController = none → cancelCurrentRequest st = st) ∧
    (∀ (env : Env) (m : String) (idx : Nat) (p : Option ToolConfirmation),
      idx < MODEL_FALLBACK_CHAIN.length →
      countCancelled (sendMessageRun env m idx p).finalLs.events ≤ 1) ∧
    (∀ (env : Env) (idx : Nat) (ls : LoopState) (reqs : List ToolCallRequestInfo)
       (e : GeminiStreamEvent) (rest : List GeminiStreamEvent),
      abortedAt env idx ls.time = true →
      processStreamEvents env idx ls reqs (e :: rest)
        = StreamOutcome.halt { ls with events := ls.events ++ [WebStreamEvent.cancelled] }) := by
  refine ⟨?_, ?_, ?_, ?_, ?_⟩
  · intro st
    rcases st with ⟨_ | ⟨id, pp, mi, _ | ⟨b⟩⟩, pend⟩ <;> rfl
  · intro st h
    rcases st with ⟨sess, pend⟩
    simp only at h
    subst h
    rfl
  · intro st s h1 h2
    rcases st with ⟨sess, pend⟩
    simp only at h1
    subst h1
    simp only [cancelCurrentRequest, h2]
  · intro env m idx p h
    have hs := runAttempts_spec env m (MODEL_FALLBACK_CHAIN.length - idx) idx
      (initialLoopState p) (by omega) h
    have h3 := hs.2.2.1
    simp only [sendMessageRun]
    have hz : countCancelled (initialLoopState p).events = 0 := rfl
    omega
  · intro env idx ls reqs e rest h
    simp [processStreamEvents, handleStreamEvent, h]

def sessIdle : WebSession := ⟨"sid", "/proj", 0, none⟩

def mgrIdle : SessionManagerState := ⟨some sessIdle, none⟩

theorem C8_cancellation_idempotent_witness :
    cancelCurrentRequest mgrIdle = mgrIdle ∧
    processStreamEvents envAbortNow 0 (initialLoopState none) []
        [GeminiStreamEvent.content (some "partial")]
      = StreamOutcome.halt { initialLoopState none with
          events := (initialLoopState none).events ++ [WebStreamEvent.cancelled] } :=
  ⟨C8_cancellation_idempotent.2.2.1 mgrIdle sessIdle rfl rfl,
   C8_cancellation_idempotent.2.2.2.2 envAbortNow 0 (initialLoopState none) []
     (GeminiStreamEvent.content (some "partial")) [] (by decide)⟩

/-- C9.  A session stores at most one abort controller (an `Option` field),
and whatever way the turn ends, `sendMessage` leaves the session with
`abortController = none`, so the next turn allocates a fresh controller. -/
theorem C9_abort_controller_cleared :
    ∀ (env : Env) (m : String) (st : SessionManagerState) (s : WebSession),
    st.session = some s →
    ∃ s2, (sendMessage st env m).2.1.session = some s2 ∧ s2.abortController = none :=
  fun env m st s h => sendMessage_clears_abortController env m st s h

def sessActive : WebSession := ⟨"sid", "/proj", 0, some ⟨false⟩⟩

def mgrActive : SessionManagerState := ⟨some sessActive, none⟩

theorem C9_abort_controller_cleared_witness :
    ∃ s2, (sendMessage mgrActive envTransportError "hi").2.1.session = some s2 ∧
      s2.abortController = none :=
  C9_abort_controller_cleared envTransportError "hi" mgrActive sessActive rfl

/-- C10.  With no active session, `sendMessage` throws
`'No active session'` before emitting any observer event or touching any
state: the manager state is returned unchanged and the emitted event list is
empty. -/
theorem C10_send_without_session_throws :
    ∀ (env : Env) (m : String) (p : Option ToolConfirmation),
    sendMessage ⟨none, p⟩ env m
      = (SendOutcome.threw "No active session", ⟨none, p⟩, ([] : List WebStreamEvent)) :=
  fun _ _ _ => rfl

end GeminiStudy
